import Mathlib

/-!
afl-ld, the linker wrapper of llvm_mode (src/llvm_mode/afl-ld.c).

A shallow embedding of `is_llvm_file`, `edit_params` and `main`, followed by
theorems about argument classification, the merge / instrument / link pipeline,
the reentry guard and the self-reference check.

Conventions of the embedding.
* A C string is a Lean `String` whose characters stand for the bytes of the
  C string; `strcmp(a, b) == 0` on two such strings is `a = b` and `strlen` is
  `String.length`.
* A `char*` that may be `NULL` is an `Option String`.
* Raw byte buffers (`buf`, `exe`, `exe2`) are lists of byte values.
* Everything the process obtains from its surroundings (environment, files,
  symbolic links, pid, clock, stack contents, results of `fork`, `waitpid` and
  `execvp`) is a field of `World`.
* Build-time macros that are defined outside the file (`AFL_PATH`, `BIN_PATH`,
  `LLVM_BINDIR`, `AFL_CLANG_FLTO`, `AFL_REAL_LD`) are the fields of `Config`.
-/

namespace AflLd

/-! ## C library models -/

/-- Bytes of a C string (one byte per character). -/
def bytes (s : String) : List Nat :=
  s.toList.map Char.toNat

/-- The libc function `strncmp` on byte sequences; the end of a list reads as NUL. -/
def strncmp : List Nat → List Nat → Nat → Int
  | _, _, 0 => 0
  | a, b, n + 1 =>
    let c1 := a.headD 0
    let c2 := b.headD 0
    if c1 ≠ c2 then (c1 : Int) - (c2 : Int)
    else if c1 = 0 then 0
    else strncmp a.tail b.tail n

/-- The libc function `strcmp` on byte sequences; the end of a list reads as NUL. -/
def strcmp : List Nat → List Nat → Int
  | [], [] => 0
  | [], b :: _ => - (b : Int)
  | a :: _, [] => (a : Int)
  | a :: as, b :: bs =>
    if a ≠ b then (a : Int) - (b : Int)
    else if a = 0 then 0
    else strcmp as bs

/-- The libc predicate `isspace` in the C locale. -/
def isspace (c : Char) : Bool :=
  c = ' ' || c = '\t' || c = '\n' || c = '\x0b' || c = '\x0c' || c = '\r'

/-- Digit accumulation of `atoi`. -/
def atoi_digits : List Char → Int → Int
  | [], acc => acc
  | c :: cs, acc =>
    if c.isDigit then atoi_digits cs (acc * 10 + ((c.toNat - 48 : Nat) : Int)) else acc

/-- The libc function `atoi`: leading white space, an optional sign, then decimal
digits. The digits are accumulated without bound: a value outside the range of `int`,
for which ISO C leaves the behaviour of `atoi` undefined, is returned as it is written. -/
def atoi (s : String) : Int :=
  match s.toList.dropWhile isspace with
  | '-' :: r => - atoi_digits r 0
  | '+' :: r => atoi_digits r 0
  | r => atoi_digits r 0

/-- The libc function `strstr` on character lists: the suffix of the haystack that
starts at the first occurrence of the needle, `none` for `NULL`. -/
def strstr : List Char → List Char → Option (List Char)
  | [], needle => if needle = [] then some [] else none
  | h :: t, needle =>
    if needle.isPrefixOf (h :: t) then some (h :: t) else strstr t needle

/-- The macro `WEXITSTATUS` of sys/wait.h: `(status >> 8) & 0xff`. -/
def WEXITSTATUS (status : Nat) : Nat :=
  (status >>> 8) &&& 0xff

/-- The environment block: `getenv` is application, `none` is `NULL`. -/
abbrev Env := String → Option String

/-- The libc function `setenv(name, value, 1)`. -/
def setenv (e : Env) (name value : String) : Env :=
  fun x => if x = name then some value else e x

/-! ## Files as seen by `open` and `read` -/

/-- What `open(file, O_RDONLY)` yields when it succeeds. -/
inductive FileNode
  | data (content : List Nat)
  | unreadable
  deriving DecidableEq, Repr

/-- The file system: `none` when `open` fails. -/
abbrev FileSys := String → Option FileNode

/-- The system call `read(fd, buf, count)` at offset 0: return value and the bytes
stored in the buffer. -/
def read (node : FileNode) (count : Nat) : Int × List Nat :=
  match node with
  | FileNode.data content => (((content.take count).length : Nat), content.take count)
  | FileNode.unreadable => (-1, [])

/-- Source lines 63-81, `is_llvm_file`. -/
def is_llvm_file (fs : FileSys) (file : String) : Nat :=
  match fs file with
  | none => 0
  | some node =>
    let r := read node 5
    if r.1 ≠ 5 then 0
    else
      let buf := r.2.set 4 0
      if strncmp buf (bytes "; Mo") 4 = 0 then 1
      else if buf.getD 0 0 = 0x42 ∧ buf.getD 1 0 = 0x43 ∧ buf.getD 2 0 = 0xC0 ∧ buf.getD 3 0 = 0xDE
      then 1
      else 0

/-! ## Configuration, surroundings and observable behaviour -/

/-- Build-time macros defined outside afl-ld.c (config.h and the build flags). -/
structure Config where
  AFL_PATH : String
  BIN_PATH : String
  LLVM_BINDIR : String
  AFL_CLANG_FLTO : String
  AFL_REAL_LD : Option String

/-- What the parent observes of one child: the value `fork` returns in the parent,
the value `waitpid` returns, and the wait status it stores. -/
structure ChildResult where
  fork_ret : Int
  wait_ret : Int
  status : Nat
  deriving DecidableEq, Repr

/-- One call `execvp(file, argv)` together with the value of `PATH` at the call. -/
structure ExecAttempt where
  file : String
  argv : List String
  PATH : Option String
  deriving DecidableEq, Repr

/-- Everything the process obtains from its surroundings. -/
structure World where
  env : Env
  fs : FileSys
  readlink : String → Option String
  pid : Nat
  time0 : Nat
  time1 : Nat
  exe_stack : List Nat
  exe2_stack : List Nat
  child : Nat → ChildResult
  execvp : ExecAttempt → Bool

/-- The fatal diagnostics of afl-ld.c (`PFATAL` and `FATAL` print and terminate). -/
inductive Fatal
  | real_ld_points_to_afl_ld
  | calls_itself_in_a_loop
  | failed_to_execute (what : String)
  | fork_failed
  | waitpid_failed
  deriving DecidableEq, Repr

/-- How a process ends: `exit(status)`, a fatal diagnostic, a successful `execvp`,
or undefined behaviour (`strstr` applied to a `NULL` PATH). -/
inductive Final
  | exit (status : Nat)
  | fatal (f : Fatal)
  | execd (a : ExecAttempt)
  | undefined
  deriving DecidableEq, Repr

/-- The code a forked child runs: the `execvp` calls it makes in order, each one
reached only when the previous ones failed, and how it ends when all fail. -/
structure ChildProg where
  attempts : List ExecAttempt
  last : Final
  deriving DecidableEq, Repr

/-- The three `fork` sites of `main`: line 251 (llvm-link), line 264 (opt) and
line 282 (the real linker). -/
inductive Stage
  | MERGE
  | INSTRUMENT
  | LINK
  deriving DecidableEq, Repr

/-- Console messages of `main`. -/
inductive Msg
  | banner (level : Int)
  | usage
  | no_lto_input_file_found
  | running_bitcode_linker
  | running_bitcode_optimizer
  | running_real_linker
  | keeping_files
  | linker_was_successful
  deriving DecidableEq, Repr

/-- Observable actions of the wrapper process, in program order. -/
inductive Event
  | setenv (name value : String)
  | msg (m : Msg)
  | execvp_failed (a : ExecAttempt)
  | fork (stage : Stage) (child : ChildProg)
  | waitpid (stage : Stage)
  | unlink (path : Option String)
  deriving DecidableEq, Repr

/-- A run of `main`: its actions and how it ends. -/
structure Run where
  events : List Event
  final : Final
  deriving DecidableEq, Repr

/-! ## `edit_params` -/

/-- A `NULL`-terminated vector as `execvp` reads it: the entries before the first
`NULL`. -/
def cvec : List (Option String) → List String
  | some s :: rest => s :: cvec rest
  | _ => []

/-- The part of the global state the classification loop writes. -/
structure LoopState where
  ld_params : List (Option String)
  link_params : List (Option String)
  ld_par_cnt : Nat
  link_par_cnt : Nat
  deriving DecidableEq, Repr

/-- Source lines 120-139: the body of the loop applied to `argv[i]` for the
successive `i`; the second component tells whether the loop left through the
`return` of the "-version" branch. -/
def classify_loop (fs : FileSys) : List String → LoopState → LoopState × Bool
  | [], st => (st, false)
  | a :: rest, st =>
    if a = "-version" then
      (LoopState.mk ((st.ld_params.set 1 (some a)).set 2 none) st.link_params
        st.ld_par_cnt st.link_par_cnt, true)
    else if a ≠ "--afl" then
      if a.toList.head? = some '-' ∨ is_llvm_file fs a = 0 then
        classify_loop fs rest
          (LoopState.mk (st.ld_params.set st.ld_par_cnt (some a)) st.link_params
            (st.ld_par_cnt + 1) st.link_par_cnt)
      else
        classify_loop fs rest
          (LoopState.mk st.ld_params (st.link_params.set st.link_par_cnt (some a))
            st.ld_par_cnt (st.link_par_cnt + 1))
    else classify_loop fs rest st

/-- The arguments the loop `for (i = 1; i < argc - 1; i++)` visits:
`argv[1], ..., argv[argc - 2]`. -/
def loop_range (argv : List String) : List String :=
  (argv.take (argv.length - 1)).drop 1

/-- The global state after `edit_params`. -/
structure Params where
  ld_params : List (Option String)
  link_params : List (Option String)
  opt_params : List (Option String)
  ld_par_cnt : Nat
  link_par_cnt : Nat
  opt_par_cnt : Nat
  modified_file : Option String
  linked_file : String
  just_version : Bool
  deriving DecidableEq, Repr

/-- Source lines 89-94: the directory of the temporary files. -/
def tmp_dir (env : Env) : String :=
  match env "TMPDIR" with
  | some d => d
  | none =>
    match env "TEMP" with
    | some d => d
    | none =>
      match env "TMP" with
      | some d => d
      | none => "/tmp"

/-- The format "%s/.afl-%u-%u.EXT" of lines 96-99; the arguments are the
directory, `getpid()` and `(u32)time(NULL)`. -/
def tmp_name (dir : String) (pid time : Nat) (ext : String) : String :=
  dir ++ "/.afl-" ++ toString (pid % 2 ^ 32) ++ "-" ++ toString (time % 2 ^ 32) ++ "." ++ ext

/-- Source lines 87-145, `edit_params`, called with `argc = argv.length` (at least 2
at the only call site). The globals start as `ld_par_cnt = link_par_cnt =
opt_par_cnt = 1`, `just_version = 0`, `input_file = NULL` (never assigned). -/
def edit_params (cfg : Config) (w : World) (env : Env) (real_ld afl_path : String)
    (argv : List String) : Params :=
  let argc := argv.length
  let modified_file := tmp_name (tmp_dir env) w.pid w.time0 "bc"
  let linked_file := tmp_name (tmp_dir env) w.pid w.time1 "ll"
  let ld_params := ((List.replicate (argc + 32) (none : Option String)).set 0 (some real_ld)).set argc none
  let link_params := (((List.replicate (argc + 32) (none : Option String)).set 0
    (some (cfg.LLVM_BINDIR ++ "/" ++ "llvm-link"))).set 1 (some "-o")).set 2 (some linked_file)
  let opt_params := (((((((List.replicate 8 (none : Option String)).set 0
    (some (cfg.LLVM_BINDIR ++ "/" ++ "opt"))).set 1
    (some ("--load=" ++ afl_path ++ "/afl-llvm-lto-instrumentation-pass.so"))).set 2
    (some "--afl-lto")).set 3 (some linked_file)).set 4 (some "-o")).set 5 (some modified_file))
  let r := classify_loop w.fs (loop_range argv) (LoopState.mk ld_params link_params 1 3)
  if r.2 then
    Params.mk r.1.ld_params r.1.link_params opt_params r.1.ld_par_cnt r.1.link_par_cnt 6
      none linked_file true
  else
    Params.mk
      (((r.1.ld_params.set r.1.ld_par_cnt (some cfg.AFL_CLANG_FLTO)).set (r.1.ld_par_cnt + 1)
        (some modified_file)).set (r.1.ld_par_cnt + 2) none)
      r.1.link_params opt_params (r.1.ld_par_cnt + 2) r.1.link_par_cnt 6
      (some modified_file) linked_file false

/-! ## `main` -/

/-- Source lines 158-162: the path of the real linker. -/
def resolve_real_ld (cfg : Config) (env : Env) : String :=
  let s0 : Option String :=
    match env "AFL_REAL_LD" with
    | some v => some v
    | none => cfg.AFL_REAL_LD
  let s1 : String :=
    match s0 with
    | none => "/bin/ld"
    | some s => if s.length < 2 then "/bin/ld" else s
  if s1.toList.head? ≠ some '/' then "/bin/" ++ s1 else s1

/-- The system call `readlink(path, buf, bufsiz)` on an existing link with the given
target: it stores at most `bufsiz` bytes of the target at the start of the buffer,
appends no NUL, and returns the number of bytes stored. -/
def readlink_into (target : String) (buf : List Nat) (bufsiz : Nat) : Int × List Nat :=
  let written := (bytes target).take bufsiz
  ((written.length : Nat), written ++ buf.drop written.length)

/-- Source lines 164-172: whether the self-reference test ends in `PFATAL`. The
buffers `exe` and `exe2` are uninitialised locals of 4096 bytes; their initial
bytes are `w.exe_stack` and `w.exe2_stack`. -/
def points_to_afl_ld (w : World) (real_ld : String) : Bool :=
  let proc := "/proc/" ++ toString w.pid ++ "/exe"
  match w.readlink proc with
  | none => false
  | some target =>
    let r := readlink_into target w.exe_stack 4095
    if r.1 > 0 then
      let exe2 :=
        match w.readlink real_ld with
        | none => w.exe2_stack.set 0 0
        | some target2 =>
          let r2 := readlink_into target2 w.exe2_stack 4095
          if r2.1 < 1 then r2.2.set 0 0 else r2.2
      let exe := (r.2.set (4096 - 1) 0).set (4096 - 1) 0
      decide (strcmp exe (bytes real_ld) = 0) || decide (strcmp exe exe2 = 0)
    else false

/-- Source line 175: the string in `val` after `val[0] = 0x31 + have_afl_ld_caller`
(`val` is a `u8[2]` whose second byte is NUL). -/
def val_string (have_afl_ld_caller : Int) : String :=
  let b := ((0x31 + have_afl_ld_caller) % 256).toNat
  if b = 0 then "" else String.singleton (Char.ofNat b)

/-- Source lines 222-228 and 298-304: the value of `PATH` once `newpath` was looked
at (`strstr` found nothing: unchanged). -/
def apply_newpath (path : String) : Option (List Char) → Option String
  | none => some path
  | some newpath => some (String.mk (newpath.dropWhile (fun c => c = ':')))

/-- Source lines 217-228 and 293-304: the value of `PATH` after the block, or `none`
when `strstr` is applied to a `NULL` PATH. -/
def path_fallback (cfg : Config) (afl_path : String) (path : Option String) :
    Option (Option String) :=
  if afl_path.length > 1 then
    match path with
    | none => none
    | some p => some (apply_newpath p (strstr p.toList afl_path.toList))
  else if cfg.BIN_PATH.length > 1 then
    match path with
    | none => none
    | some p => some (apply_newpath p (strstr p.toList cfg.BIN_PATH.toList))
  else some path

/-- Source lines 205-237: the `execvp` calls of the branch taken when `AFL_LD` is not
set, in order, and how the branch ends when all of them fail. -/
def direct_exec (cfg : Config) (env : Env) (real_ld afl_path : String)
    (have_afl_ld_caller : Int) (argv : List String) : ChildProg :=
  let path := env "PATH"
  let a1 := if real_ld.length > 1 then [ExecAttempt.mk real_ld argv path] else []
  let a2 := if have_afl_ld_caller = 0 then [ExecAttempt.mk "ld" argv path] else []
  match path_fallback cfg afl_path path with
  | none => ChildProg.mk (a1 ++ a2) Final.undefined
  | some path2 =>
    let a3 := if have_afl_ld_caller = 1 then [ExecAttempt.mk "ld" argv path2] else []
    ChildProg.mk (a1 ++ a2 ++ a3 ++ [ExecAttempt.mk "/bin/ld" argv path2])
      (Final.fatal (Fatal.failed_to_execute "ld"))

/-- Running `execvp` calls in the current process: the first one that succeeds
replaces the process image. -/
def run_attempts (ok : ExecAttempt → Bool) : List ExecAttempt → Final → List Event × Final
  | [], last => ([], last)
  | a :: rest, last =>
    if ok a then ([], Final.execd a)
    else ((Event.execvp_failed a) :: (run_attempts ok rest last).1, (run_attempts ok rest last).2)

/-- Source lines 251-256 and 264-269: the child runs `execvp(params[0], params)` and
ends in `FATAL` when that fails. -/
def tool_child (params : List (Option String)) (path : Option String) : ChildProg :=
  ChildProg.mk [ExecAttempt.mk ((params.headD none).getD "") (cvec params) path]
    (Final.fatal (Fatal.failed_to_execute ((params.headD none).getD "")))

/-- Source lines 282-309: the child that runs the real linker. -/
def ld_child (cfg : Config) (env : Env) (real_ld afl_path : String)
    (ld_params : List (Option String)) : ChildProg :=
  let path := env "PATH"
  let a1 := if real_ld.length > 1 then [ExecAttempt.mk real_ld (cvec ld_params) path] else []
  match path_fallback cfg afl_path path with
  | none => ChildProg.mk a1 Final.undefined
  | some path2 =>
    ChildProg.mk (a1 ++ [ExecAttempt.mk "ld" (cvec ld_params) path2])
      (Final.fatal (Fatal.failed_to_execute "ld"))

/-- Source lines 281-326: the real linker is run as the child of the `k`-th `fork`
of the process, then the temporary files are removed or kept. -/
def link_stage (cfg : Config) (w : World) (env : Env) (p : Params) (real_ld afl_path : String)
    (k : Nat) : List Event × Final :=
  let c := w.child k
  let e0 := [Event.msg Msg.running_real_linker,
    Event.fork Stage.LINK (ld_child cfg env real_ld afl_path p.ld_params)]
  if c.fork_ret < 0 then (e0, Final.fatal Fatal.fork_failed)
  else if c.wait_ret ≤ 0 then (e0 ++ [Event.waitpid Stage.LINK], Final.fatal Fatal.waitpid_failed)
  else
    let e1 :=
      if p.just_version then []
      else
        (if env "AFL_KEEP_ASSEMBLY" = none then
          [Event.unlink (some p.linked_file), Event.unlink p.modified_file]
        else [Event.msg Msg.keeping_files]) ++ [Event.msg Msg.linker_was_successful]
    (e0 ++ [Event.waitpid Stage.LINK] ++ e1, Final.exit (WEXITSTATUS c.status))

/-- Source lines 241-326: the stages that follow `edit_params`. -/
def pipeline (cfg : Config) (w : World) (env : Env) (p : Params) (real_ld afl_path : String) :
    List Event × Final :=
  if p.just_version then link_stage cfg w env p real_ld afl_path 0
  else if p.link_par_cnt = 6 then
    (Event.msg Msg.no_lto_input_file_found :: (link_stage cfg w env p real_ld afl_path 0).1,
      (link_stage cfg w env p real_ld afl_path 0).2)
  else
    let c0 := w.child 0
    let e0 := [Event.msg Msg.running_bitcode_linker,
      Event.fork Stage.MERGE (tool_child p.link_params (env "PATH"))]
    if c0.fork_ret < 0 then (e0, Final.fatal Fatal.fork_failed)
    else if c0.wait_ret ≤ 0 then
      (e0 ++ [Event.waitpid Stage.MERGE], Final.fatal Fatal.waitpid_failed)
    else if WEXITSTATUS c0.status ≠ 0 then
      (e0 ++ [Event.waitpid Stage.MERGE], Final.exit (WEXITSTATUS c0.status))
    else
      let c1 := w.child 1
      let e1 := e0 ++ [Event.waitpid Stage.MERGE, Event.msg Msg.running_bitcode_optimizer,
        Event.fork Stage.INSTRUMENT (tool_child p.opt_params (env "PATH"))]
      if c1.fork_ret < 0 then (e1, Final.fatal Fatal.fork_failed)
      else if c1.wait_ret ≤ 0 then
        (e1 ++ [Event.waitpid Stage.INSTRUMENT], Final.fatal Fatal.waitpid_failed)
      else if WEXITSTATUS c1.status ≠ 0 then
        (e1 ++ [Event.waitpid Stage.INSTRUMENT], Final.exit (WEXITSTATUS c1.status))
      else
        (e1 ++ [Event.waitpid Stage.INSTRUMENT] ++ (link_stage cfg w env p real_ld afl_path 2).1,
          (link_stage cfg w env p real_ld afl_path 2).2)

/-- Source line 174: the depth read from `AFL_LD_CALLER` (0 when it is not set). -/
def read_caller (env : Env) : Int :=
  match env "AFL_LD_CALLER" with
  | some ptr => atoi ptr
  | none => 0

/-- Source line 156: the tool-suite directory. -/
def resolve_afl_path (cfg : Config) (env : Env) : String :=
  match env "AFL_PATH" with
  | some v => v
  | none => cfg.AFL_PATH

/-- Source lines 149-328, `main`, called with `argc = argv.length`. -/
def main (cfg : Config) (w : World) (argv : List String) : Run :=
  let afl_path := resolve_afl_path cfg w.env
  let real_ld := resolve_real_ld cfg w.env
  if points_to_afl_ld w real_ld then Run.mk [] (Final.fatal Fatal.real_ld_points_to_afl_ld)
  else
    let have_afl_ld_caller := read_caller w.env
    let val := val_string have_afl_ld_caller
    let env := setenv w.env "AFL_LD_CALLER" val
    let e1 := [Event.setenv "AFL_LD_CALLER" val]
    if have_afl_ld_caller > 1 then Run.mk e1 (Final.fatal Fatal.calls_itself_in_a_loop)
    else
      let e2 := e1 ++
        (if env "AFL_QUIET" = none then [Event.msg (Msg.banner have_afl_ld_caller)] else [])
      if argv.length < 2 then Run.mk (e2 ++ [Event.msg Msg.usage]) (Final.exit 1)
      else if env "AFL_LD" = none then
        let d := direct_exec cfg env real_ld afl_path have_afl_ld_caller argv
        Run.mk (e2 ++ (run_attempts w.execvp d.attempts d.last).1)
          (run_attempts w.execvp d.attempts d.last).2
      else
        let p := edit_params cfg w env real_ld afl_path argv
        Run.mk (e2 ++ (pipeline cfg w env p real_ld afl_path).1)
          (pipeline cfg w env p real_ld afl_path).2

/-! ## Observations on runs and the vocabulary of the statements -/

/-- Source line 133: the test that sends `argv[i]` to `ld_params` (otherwise it goes
to `link_params`). -/
def to_ld_params (fs : FileSys) (a : String) : Bool :=
  decide (a.toList.head? = some '-' ∨ is_llvm_file fs a = 0)

/-- The environment of the process after line 176. -/
def env_after_guard (w : World) : Env :=
  setenv w.env "AFL_LD_CALLER" (val_string (read_caller w.env))

/-- The run gets past the self-reference test and the reentry guard, and `AFL_LD` is
set, so that `main` calls `edit_params` once `argc >= 2`. -/
def pipeline_mode (cfg : Config) (w : World) : Prop :=
  points_to_afl_ld w (resolve_real_ld cfg w.env) = false ∧ read_caller w.env ≤ 1 ∧
    w.env "AFL_LD" ≠ none

/-- The stages of the `fork` calls of a trace, in order. -/
def forks : List Event → List Stage
  | [] => []
  | Event.fork s _ :: r => s :: forks r
  | _ :: r => forks r

/-- The argument vectors of all `execvp` calls made by the children forked for the
given stage. -/
def exec_argvs (s : Stage) : List Event → List (List String)
  | [] => []
  | Event.fork s1 c :: r =>
    if s1 = s then c.attempts.map ExecAttempt.argv ++ exec_argvs s r else exec_argvs s r
  | _ :: r => exec_argvs s r

/-- The arguments of the `unlink` calls of a trace, in order. -/
def unlinks : List Event → List (Option String)
  | [] => []
  | Event.unlink f :: r => f :: unlinks r
  | _ :: r => unlinks r

/-- The value published by `setenv("AFL_LD_CALLER", val, 1)`, if the run got there. -/
def published : List Event → Option String
  | [] => none
  | Event.setenv name value :: r => if name = "AFL_LD_CALLER" then some value else published r
  | _ :: r => published r

/-- Whether the process itself called `execvp` (successfully or not) or `fork`. -/
def exec_or_fork (r : Run) : Bool :=
  r.events.any (fun e =>
    match e with
    | Event.fork _ _ => true
    | Event.execvp_failed _ => true
    | _ => false) ||
  (match r.final with
    | Final.execd _ => true
    | _ => false)

/-- The actions of `main` before the test of `argc` (lines 176-187). -/
def prelude (w : World) : List Event :=
  [Event.setenv "AFL_LD_CALLER" (val_string (read_caller w.env))] ++
    (if env_after_guard w "AFL_QUIET" = none then [Event.msg (Msg.banner (read_caller w.env))]
      else [])

instance (cfg : Config) (w : World) : Decidable (pipeline_mode cfg w) := by
  unfold pipeline_mode
  infer_instance

/-! ## Concrete surroundings used in the examples -/

/-- A build configuration. -/
def cfg0 : Config :=
  Config.mk "/usr/local/lib/afl" "/usr/local/bin" "/usr/lib/llvm-9/bin" "-flto" (some "/bin/ld")

/-- A file system in which `a.bc`, `b.bc`, `c.bc` and `-d.bc` are LLVM bitcode, `e.ll`
is textual LLVM IR, `foo.o` is an ELF object, `tiny` has four bytes and `dir` is a
directory; no other path can be opened. -/
def fs0 : FileSys := fun f =>
  if f = "a.bc" ∨ f = "b.bc" ∨ f = "c.bc" ∨ f = "-d.bc" then
    some (FileNode.data [0x42, 0x43, 0xC0, 0xDE, 0x35, 0x14, 0x00, 0x00])
  else if f = "e.ll" then some (FileNode.data (bytes "; ModuleID = 'e.c'"))
  else if f = "foo.o" then some (FileNode.data [0x7f, 0x45, 0x4c, 0x46, 0x02, 0x01, 0x01])
  else if f = "tiny" then some (FileNode.data [0x42, 0x43, 0xC0, 0xDE])
  else if f = "dir" then some FileNode.unreadable
  else none

/-- An environment with `AFL_LD` and `PATH` set. -/
def env0 : Env := fun n =>
  if n = "AFL_LD" then some "1"
  else if n = "PATH" then some "/usr/bin:/usr/local/lib/afl:/bin"
  else none

/-- A process with pid 4242 under the given environment, symbolic links and stale stack
byte, with the files of `fs0`; its children are all created, waited for, and end with the
given wait status; no `execvp` of the process itself succeeds. -/
def world (env : Env) (readlink : String → Option String) (stale : Nat) (status : Nat → Nat) :
    World :=
  World.mk env fs0 readlink 4242 1600000000 1600000001
    (List.replicate 4096 stale) (List.replicate 4096 stale)
    (fun k => ChildResult.mk 4243 4243 (status k)) (fun _ => false)

/-- The process `world` under `env0`, without symbolic links, with stale stack bytes 0x41. -/
def world0 (status : Nat → Nat) : World :=
  world env0 (fun _ => none) 0x41 status

/-- The surroundings `world0` in which every child exits with status 0. -/
def w0 : World := world0 (fun _ => 0)

/-- The surroundings of a wrapper started by a wrapper that published the given depth. -/
def nested (depth : String) : World :=
  world (setenv env0 "AFL_LD_CALLER" depth) (fun _ => none) 0x41 (fun _ => 0)

/-- An environment in which `AFL_REAL_LD` names the wrapper itself. -/
def env_self : Env := fun n =>
  if n = "AFL_LD" then some "1"
  else if n = "AFL_REAL_LD" then some "/usr/local/bin/afl-ld"
  else if n = "PATH" then some "/usr/bin:/bin"
  else none

/-- The wrapper installed as /usr/local/bin/afl-ld (the target of /proc/4242/exe), run
under `env_self`, with the given stale byte in its uninitialised stack buffers. -/
def world_self (stale : Nat) : World :=
  world env_self (fun p => if p = "/proc/4242/exe" then some "/usr/local/bin/afl-ld" else none)
    stale (fun _ => 0)

/-- The surroundings `w0` with one more file: `bar.bc`, LLVM bitcode. -/
def w_bar : World :=
  World.mk env0
    (fun f => if f = "bar.bc" then some (FileNode.data [0x42, 0x43, 0xC0, 0xDE, 0x35, 0x14]) else fs0 f)
    (fun _ => none) 4242 1600000000 1600000001
    (List.replicate 4096 0x41) (List.replicate 4096 0x41)
    (fun _ => ChildResult.mk 4243 4243 0) (fun _ => false)

/-- The failed `execvp` calls of the process itself recorded in a trace, in order. -/
def failed_execs : List Event → List ExecAttempt
  | [] => []
  | Event.execvp_failed a :: r => a :: failed_execs r
  | _ :: r => failed_execs r

/-- The `execvp` calls the process itself made, in order: the failed ones, then the one
that replaced the process image, if any. -/
def own_execs (r : Run) : List ExecAttempt :=
  failed_execs r.events ++
    (match r.final with
      | Final.execd a => [a]
      | _ => [])

/-- The programs of the children forked for the given stage, in order. -/
def children (s : Stage) : List Event → List ChildProg
  | [] => []
  | Event.fork s1 c :: r => if s1 = s then c :: children s r else children s r
  | _ :: r => children s r

/-- An environment with `PATH` set and `AFL_LD` not set. -/
def env_plain : Env := fun n =>
  if n = "PATH" then some "/usr/bin:/usr/local/lib/afl:/bin" else none

/-- A process under the given environment, with the files of `fs0`, in which every
`execvp` of the process itself has the given outcome and every child exits with 0. -/
def world_exec (env : Env) (ok : Bool) : World :=
  World.mk env fs0 (fun _ => none) 4242 1600000000 1600000001
    (List.replicate 4096 0x41) (List.replicate 4096 0x41)
    (fun _ => ChildResult.mk 4243 4243 0) (fun _ => ok)

/-! ## Lemmas on `edit_params` -/

theorem cvec_map_some_append (l : List String) (k : Nat) :
    cvec (l.map some ++ List.replicate k none) = l := by
  induction l with
  | nil => cases k <;> simp [cvec, List.replicate_succ]
  | cons a l ih => simpa [cvec] using ih

theorem set_length_map_some (l : List String) (k : Nat) (a : String) :
    (l.map some ++ List.replicate (k + 1) none).set l.length (some a)
      = (l ++ [a]).map some ++ List.replicate k none := by
  induction l with
  | nil => simp [List.replicate_succ]
  | cons b l ih => simpa using ih

theorem classify_loop_no_version (fs : FileSys) :
    ∀ (ts : List String), "-version" ∉ ts → ∀ (L B : List String) (k m : Nat),
      ts.length ≤ k → ts.length ≤ m →
      ∃ k' m', k - ts.length ≤ k' ∧ m - ts.length ≤ m' ∧
        classify_loop fs ts
          (LoopState.mk (L.map some ++ List.replicate k none) (B.map some ++ List.replicate m none)
            L.length B.length)
        = (LoopState.mk
            ((L ++ ts.filter (fun a => a ≠ "--afl" && to_ld_params fs a)).map some
              ++ List.replicate k' none)
            ((B ++ ts.filter (fun a => a ≠ "--afl" && !to_ld_params fs a)).map some
              ++ List.replicate m' none)
            (L ++ ts.filter (fun a => a ≠ "--afl" && to_ld_params fs a)).length
            (B ++ ts.filter (fun a => a ≠ "--afl" && !to_ld_params fs a)).length, false) := by
  intro ts
  induction ts with
  | nil =>
    intro _ L B k m _ _
    exact ⟨k, m, by simp, by simp, by simp [classify_loop]⟩
  | cons a rest ih =>
    intro hv L B k m hk hm
    have ha : a ≠ "-version" := fun h => hv (by simp [h])
    have hrest : "-version" ∉ rest := fun h => hv (by simp [h])
    simp only [List.length_cons] at hk hm
    by_cases hafl : a = "--afl"
    · obtain ⟨k', m', h1, h2, h3⟩ := ih hrest L B k m (by omega) (by omega)
      refine ⟨k', m', by simp only [List.length_cons]; omega, by simp only [List.length_cons]; omega, ?_⟩
      rw [classify_loop]
      simp [ha, hafl]
      simpa [hafl] using h3
    · by_cases hld : to_ld_params fs a = true
      · obtain ⟨k1, rfl⟩ : ∃ k1, k = k1 + 1 := ⟨k - 1, by omega⟩
        obtain ⟨k', m', h1, h2, h3⟩ := ih hrest (L ++ [a]) B k1 m (by omega) (by omega)
        refine ⟨k', m', by simp only [List.length_cons]; omega, by simp only [List.length_cons]; omega, ?_⟩
        have hc : a.toList.head? = some '-' ∨ is_llvm_file fs a = 0 := by
          simpa [to_ld_params] using hld
        rw [classify_loop]
        simp only [ha, hafl, if_false, ne_eq, not_false_eq_true, if_true, hc, set_length_map_some]
        simpa [hafl, hld, List.filter_cons] using h3
      · obtain ⟨m1, rfl⟩ : ∃ m1, m = m1 + 1 := ⟨m - 1, by omega⟩
        obtain ⟨k', m', h1, h2, h3⟩ := ih hrest L (B ++ [a]) k m1 (by omega) (by omega)
        refine ⟨k', m', by simp only [List.length_cons]; omega, by simp only [List.length_cons]; omega, ?_⟩
        have hc : ¬ (a.toList.head? = some '-' ∨ is_llvm_file fs a = 0) := by
          simpa [to_ld_params] using hld
        rw [classify_loop]
        simp only [ha, hafl, if_false, ne_eq, not_false_eq_true, if_true, hc, set_length_map_some]
        simpa [hafl, hld, List.filter_cons] using h3

theorem set_flag_and_file (l : List String) (k : Nat) (a b : String) :
    cvec ((((l.map some ++ List.replicate (k + 1 + 1) none).set l.length (some a)).set
      (l.length + 1) (some b)).set (l.length + 2) none) = l ++ [a, b] := by
  rw [set_length_map_some]
  have h1 := set_length_map_some (l ++ [a]) k b
  simp only [List.length_append, List.length_singleton] at h1
  rw [h1, List.set_append_right _ _ (by simp), List.set_replicate_self, cvec_map_some_append]
  simp

theorem loop_range_cons_append (argv0 last : String) (mid : List String) :
    loop_range (argv0 :: (mid ++ [last])) = mid := by
  simp [loop_range]

theorem edit_params_no_version (cfg : Config) (w : World) (env : Env) (real_ld afl_path : String)
    (argv0 last : String) (mid : List String) (hv : "-version" ∉ mid) :
    cvec (edit_params cfg w env real_ld afl_path (argv0 :: (mid ++ [last]))).ld_params
        = real_ld :: (mid.filter (fun a => a ≠ "--afl" && to_ld_params w.fs a)
            ++ [cfg.AFL_CLANG_FLTO, tmp_name (tmp_dir env) w.pid w.time0 "bc"]) ∧
      cvec (edit_params cfg w env real_ld afl_path (argv0 :: (mid ++ [last]))).link_params
        = (cfg.LLVM_BINDIR ++ "/" ++ "llvm-link") :: "-o" :: tmp_name (tmp_dir env) w.pid w.time1 "ll"
            :: mid.filter (fun a => a ≠ "--afl" && !to_ld_params w.fs a) ∧
      (edit_params cfg w env real_ld afl_path (argv0 :: (mid ++ [last]))).link_par_cnt
        = 3 + (mid.filter (fun a => a ≠ "--afl" && !to_ld_params w.fs a)).length ∧
      (edit_params cfg w env real_ld afl_path (argv0 :: (mid ++ [last]))).just_version = false ∧
      (edit_params cfg w env real_ld afl_path (argv0 :: (mid ++ [last]))).modified_file
        = some (tmp_name (tmp_dir env) w.pid w.time0 "bc") ∧
      (edit_params cfg w env real_ld afl_path (argv0 :: (mid ++ [last]))).linked_file
        = tmp_name (tmp_dir env) w.pid w.time1 "ll" := by
  have hlen : (argv0 :: (mid ++ [last])).length = mid.length + 2 := by simp
  have hld : ((List.replicate ((argv0 :: (mid ++ [last])).length + 32) (none : Option String)).set 0
        (some real_ld)).set (argv0 :: (mid ++ [last])).length none
      = [real_ld].map some ++ List.replicate (mid.length + 33) none := by
    rw [hlen, show mid.length + 2 + 32 = (mid.length + 33) + 1 from rfl, List.replicate_succ,
      List.set_cons_zero, show mid.length + 2 = (mid.length + 1) + 1 from rfl, List.set_cons_succ,
      List.set_replicate_self]
    rfl
  have hlink : (((List.replicate ((argv0 :: (mid ++ [last])).length + 32) (none : Option String)).set 0
        (some (cfg.LLVM_BINDIR ++ "/" ++ "llvm-link"))).set 1 (some "-o")).set 2
        (some (tmp_name (tmp_dir env) w.pid w.time1 "ll"))
      = [cfg.LLVM_BINDIR ++ "/" ++ "llvm-link", "-o", tmp_name (tmp_dir env) w.pid w.time1 "ll"].map some
          ++ List.replicate (mid.length + 31) none := by
    rw [hlen, show mid.length + 2 + 32 = (mid.length + 31) + 1 + 1 + 1 from rfl]
    simp [List.replicate_succ]
  obtain ⟨k', m', hk, hm, hloop⟩ := classify_loop_no_version w.fs mid hv [real_ld]
    [cfg.LLVM_BINDIR ++ "/" ++ "llvm-link", "-o", tmp_name (tmp_dir env) w.pid w.time1 "ll"]
    (mid.length + 33) (mid.length + 31) (by omega) (by omega)
  obtain ⟨k2, rfl⟩ : ∃ k2, k' = k2 + 1 + 1 := ⟨k' - 2, by omega⟩
  simp only [edit_params, loop_range_cons_append, hld, hlink]
  simp only [List.length_singleton, List.length_cons, List.length_nil] at hloop
  rw [hloop]
  simp only [Bool.false_eq_true, if_false]
  refine ⟨?_, ?_, ?_, trivial, trivial, trivial⟩
  · rw [set_flag_and_file]
    simp
  · rw [cvec_map_some_append]
    simp
  · simp only [List.length_append, List.length_cons, List.length_nil]

/-! ## Lemmas on traces and on `main` -/

theorem forks_append (a b : List Event) : forks (a ++ b) = forks a ++ forks b := by
  induction a with
  | nil => rfl
  | cons e a ih => cases e <;> simp [forks, ih]

theorem unlinks_append (a b : List Event) : unlinks (a ++ b) = unlinks a ++ unlinks b := by
  induction a with
  | nil => rfl
  | cons e a ih => cases e <;> simp [unlinks, ih]

theorem exec_argvs_append (s : Stage) (a b : List Event) :
    exec_argvs s (a ++ b) = exec_argvs s a ++ exec_argvs s b := by
  induction a with
  | nil => rfl
  | cons e a ih =>
    cases e <;> simp [exec_argvs, ih]
    split <;> simp

theorem forks_run_attempts (ok : ExecAttempt → Bool) (l : List ExecAttempt) (last : Final) :
    forks (run_attempts ok l last).1 = [] := by
  induction l with
  | nil => rfl
  | cons a l ih =>
    rw [run_attempts]
    split
    · rfl
    · simpa [forks] using ih

theorem WEXITSTATUS_exited (N : Nat) (hN : N ≤ 255) : WEXITSTATUS (256 * N) = N := by
  unfold WEXITSTATUS
  rw [Nat.shiftRight_eq_div_pow, show (0xff : Nat) = 2 ^ 8 - 1 from rfl,
    Nat.and_pow_two_sub_one_eq_mod]
  omega

theorem WEXITSTATUS_signalled (s : Nat) (hs : s < 256) : WEXITSTATUS s = 0 := by
  unfold WEXITSTATUS
  rw [Nat.shiftRight_eq_div_pow, Nat.div_eq_of_lt (by omega)]
  simp

theorem forks_link_stage (cfg : Config) (w : World) (env : Env) (p : Params)
    (real_ld afl_path : String) (k : Nat) :
    forks (link_stage cfg w env p real_ld afl_path k).1 = [Stage.LINK] := by
  unfold link_stage
  simp only
  split
  · simp [forks]
  · split
    · simp [forks]
    · simp only [forks_append]
      split <;> [skip; split] <;> simp [forks]

theorem link_stage_final (cfg : Config) (w : World) (env : Env) (p : Params)
    (real_ld afl_path : String) (k : Nat) (hf : 0 < (w.child k).fork_ret)
    (hw : 0 < (w.child k).wait_ret) :
    (link_stage cfg w env p real_ld afl_path k).2 = Final.exit (WEXITSTATUS (w.child k).status) := by
  unfold link_stage
  simp only
  rw [if_neg (by omega), if_neg (by omega)]

theorem forks_prelude (w : World) : forks (prelude w) = [] := by
  unfold prelude
  split <;> simp [forks]

theorem main_pipeline_mode (cfg : Config) (w : World) (argv : List String)
    (h : pipeline_mode cfg w) (hargc : 2 ≤ argv.length) :
    main cfg w argv = Run.mk
      (prelude w ++ (pipeline cfg w (env_after_guard w)
        (edit_params cfg w (env_after_guard w) (resolve_real_ld cfg w.env)
          (resolve_afl_path cfg w.env) argv)
        (resolve_real_ld cfg w.env) (resolve_afl_path cfg w.env)).1)
      (pipeline cfg w (env_after_guard w)
        (edit_params cfg w (env_after_guard w) (resolve_real_ld cfg w.env)
          (resolve_afl_path cfg w.env) argv)
        (resolve_real_ld cfg w.env) (resolve_afl_path cfg w.env)).2 := by
  obtain ⟨h1, h2, h3⟩ := h
  have h4 : setenv w.env "AFL_LD_CALLER" (val_string (read_caller w.env)) "AFL_LD" ≠ none := by
    simpa [setenv] using h3
  unfold main
  simp only [h1, Bool.false_eq_true, if_false, if_neg (not_lt.mpr h2), if_neg (not_lt.mpr hargc),
    if_neg h4]
  rfl

theorem main_forks_nil (cfg : Config) (w : World) (argv : List String)
    (h : ¬ (pipeline_mode cfg w ∧ 2 ≤ argv.length)) : forks (main cfg w argv).events = [] := by
  unfold main
  simp only
  split
  · rfl
  · rename_i h1
    split
    · simp [forks]
    · rename_i h2
      split
      · simp only [forks_append]
        split <;> simp [forks]
      · rename_i h3
        split
        · simp only [forks_append, forks_run_attempts]
          split <;> simp [forks]
        · rename_i h4
          exfalso
          apply h
          refine ⟨⟨by simpa using h1, by simpa using h2, ?_⟩, by omega⟩
          simpa [setenv] using h4

theorem pipeline_skip (cfg : Config) (w : World) (env : Env) (p : Params)
    (real_ld afl_path : String) (h : p.just_version = true ∨ p.link_par_cnt = 6) :
    forks (pipeline cfg w env p real_ld afl_path).1 = [Stage.LINK] ∧
      (pipeline cfg w env p real_ld afl_path).2 = (link_stage cfg w env p real_ld afl_path 0).2 := by
  unfold pipeline
  by_cases hj : p.just_version = true
  · simp [hj, forks_link_stage]
  · have h6 : p.link_par_cnt = 6 := by tauto
    simp [hj, h6, forks, forks_link_stage]

theorem pipeline_merge_fails (cfg : Config) (w : World) (env : Env) (p : Params)
    (real_ld afl_path : String) (hj : p.just_version = false) (h6 : p.link_par_cnt ≠ 6)
    (hf : 0 < (w.child 0).fork_ret) (hw : 0 < (w.child 0).wait_ret)
    (hs : WEXITSTATUS (w.child 0).status ≠ 0) :
    forks (pipeline cfg w env p real_ld afl_path).1 = [Stage.MERGE] ∧
      (pipeline cfg w env p real_ld afl_path).2 = Final.exit (WEXITSTATUS (w.child 0).status) := by
  unfold pipeline
  simp only [hj, Bool.false_eq_true, if_false, h6, if_neg (not_lt.mpr (le_of_lt hf)),
    if_neg (not_le.mpr hw)]
  simp [hs, forks]

theorem pipeline_instrument_fails (cfg : Config) (w : World) (env : Env) (p : Params)
    (real_ld afl_path : String) (hj : p.just_version = false) (h6 : p.link_par_cnt ≠ 6)
    (hf : 0 < (w.child 0).fork_ret) (hw : 0 < (w.child 0).wait_ret)
    (hs : WEXITSTATUS (w.child 0).status = 0)
    (hf1 : 0 < (w.child 1).fork_ret) (hw1 : 0 < (w.child 1).wait_ret)
    (hs1 : WEXITSTATUS (w.child 1).status ≠ 0) :
    forks (pipeline cfg w env p real_ld afl_path).1 = [Stage.MERGE, Stage.INSTRUMENT] ∧
      (pipeline cfg w env p real_ld afl_path).2 = Final.exit (WEXITSTATUS (w.child 1).status) := by
  unfold pipeline
  simp only [hj, Bool.false_eq_true, if_false, h6, if_neg (not_lt.mpr (le_of_lt hf)),
    if_neg (not_le.mpr hw), if_neg (not_lt.mpr (le_of_lt hf1)), if_neg (not_le.mpr hw1)]
  simp [hs, hs1, forks]

theorem partition_perm (fs : FileSys) (mid : List String) :
    (mid.filter (fun a => a ≠ "--afl" && to_ld_params fs a)
      ++ mid.filter (fun a => a ≠ "--afl" && !to_ld_params fs a)
      ++ mid.filter (fun a => a = "--afl")).Perm mid := by
  induction mid with
  | nil => simp
  | cons a rest ih =>
    by_cases hafl : a = "--afl"
    · simp only [List.filter_cons, hafl, ne_eq, not_true_eq_false, decide_False, Bool.false_and,
        Bool.false_eq_true, if_false, decide_True, if_true]
      exact (List.perm_middle.trans (List.Perm.cons _ (by simpa using ih)))
    · by_cases hld : to_ld_params fs a = true
      · simp only [List.filter_cons, hafl, hld, ne_eq, not_false_eq_true, decide_True, Bool.and_self,
          if_true, Bool.not_true, Bool.and_false, Bool.false_eq_true, if_false, decide_False,
          List.cons_append]
        exact List.Perm.cons _ (by simpa using ih)
      · simp only [Bool.not_eq_true] at hld
        simp only [List.filter_cons, hafl, hld, ne_eq, not_false_eq_true, decide_True, Bool.and_false,
          Bool.false_eq_true, if_false, Bool.not_false, Bool.and_self, if_true, decide_False]
        have h2 : (List.filter (fun a => decide (a ≠ "--afl") && to_ld_params fs a) rest ++
            a :: List.filter (fun a => decide (a ≠ "--afl") && !to_ld_params fs a) rest ++
            List.filter (fun a => decide (a = "--afl")) rest).Perm
            (a :: (List.filter (fun a => decide (a ≠ "--afl") && to_ld_params fs a) rest ++
            List.filter (fun a => decide (a ≠ "--afl") && !to_ld_params fs a) rest ++
            List.filter (fun a => decide (a = "--afl")) rest)) := by
          rw [List.append_assoc, List.append_assoc]
          exact List.perm_middle
        exact h2.trans (List.Perm.cons _ ih)

theorem pipeline_merge_cases (cfg : Config) (w : World) (env : Env) (p : Params)
    (real_ld afl_path : String) (hj : p.just_version = false) (h6 : p.link_par_cnt ≠ 6) :
    forks (pipeline cfg w env p real_ld afl_path).1 = [Stage.MERGE] ∨
      forks (pipeline cfg w env p real_ld afl_path).1 = [Stage.MERGE, Stage.INSTRUMENT] ∨
      (forks (pipeline cfg w env p real_ld afl_path).1
          = [Stage.MERGE, Stage.INSTRUMENT, Stage.LINK] ∧
        (pipeline cfg w env p real_ld afl_path).2
          = (link_stage cfg w env p real_ld afl_path 2).2) := by
  unfold pipeline
  simp only [hj, Bool.false_eq_true, if_false, h6]
  split
  · simp [forks]
  · split
    · simp [forks]
    · split
      · simp [forks]
      · split
        · simp [forks]
        · split
          · simp [forks]
          · split
            · simp [forks]
            · simp [forks, forks_append, forks_link_stage]

theorem resolve_real_ld_length (cfg : Config) (env : Env) :
    2 ≤ (resolve_real_ld cfg env).length := by
  unfold resolve_real_ld
  simp only
  have key : ∀ s1 : String, 2 ≤ s1.length →
      2 ≤ (if s1.toList.head? ≠ some '/' then "/bin/" ++ s1 else s1).length := by
    intro s1 h
    split
    · rw [String.length_append]
      omega
    · exact h
  apply key
  split
  · decide
  · split
    · decide
    · omega

theorem ld_child_argvs (cfg : Config) (env : Env) (real_ld afl_path : String)
    (ld_params : List (Option String)) (hlen : 2 ≤ real_ld.length) :
    (ld_child cfg env real_ld afl_path ld_params).attempts.map ExecAttempt.argv
        = [cvec ld_params] ∨
      (ld_child cfg env real_ld afl_path ld_params).attempts.map ExecAttempt.argv
        = [cvec ld_params, cvec ld_params] := by
  unfold ld_child
  have h1 : real_ld.length > 1 := by omega
  simp only [h1, if_true]
  split
  · left; rfl
  · right; rfl

theorem exec_argvs_link_stage (cfg : Config) (w : World) (env : Env) (p : Params)
    (real_ld afl_path : String) (k : Nat) :
    exec_argvs Stage.LINK (link_stage cfg w env p real_ld afl_path k).1
      = (ld_child cfg env real_ld afl_path p.ld_params).attempts.map ExecAttempt.argv := by
  unfold link_stage
  simp only
  split
  · simp [exec_argvs]
  · split
    · simp [exec_argvs]
    · simp only [exec_argvs_append]
      split <;> [skip; split] <;> simp [exec_argvs]

theorem unlinks_link_stage_version (cfg : Config) (w : World) (env : Env) (p : Params)
    (real_ld afl_path : String) (k : Nat) (hj : p.just_version = true) :
    unlinks (link_stage cfg w env p real_ld afl_path k).1 = [] := by
  unfold link_stage
  simp only [hj, if_true]
  split
  · simp [unlinks]
  · split <;> simp [unlinks]

theorem exec_argvs_link_pipeline (cfg : Config) (w : World) (env : Env) (p : Params)
    (real_ld afl_path : String) :
    (Stage.LINK ∉ forks (pipeline cfg w env p real_ld afl_path).1 ∧
      exec_argvs Stage.LINK (pipeline cfg w env p real_ld afl_path).1 = []) ∨
    (Stage.LINK ∈ forks (pipeline cfg w env p real_ld afl_path).1 ∧
      exec_argvs Stage.LINK (pipeline cfg w env p real_ld afl_path).1
        = (ld_child cfg env real_ld afl_path p.ld_params).attempts.map ExecAttempt.argv) := by
  unfold pipeline
  split
  · right
    simp [forks_link_stage, exec_argvs_link_stage]
  · split
    · right
      simp [forks, exec_argvs, forks_link_stage, exec_argvs_link_stage]
    · simp only
      split
      · left; simp [forks, exec_argvs]
      · split
        · left; simp [forks, exec_argvs]
        · split
          · left; simp [forks, exec_argvs]
          · split
            · left; simp [forks, exec_argvs]
            · split
              · left; simp [forks, exec_argvs]
              · split
                · left; simp [forks, exec_argvs]
                · right
                  simp [forks, exec_argvs, forks_append, exec_argvs_append, forks_link_stage,
                    exec_argvs_link_stage]

theorem exec_argvs_prelude (s : Stage) (w : World) : exec_argvs s (prelude w) = [] := by
  unfold prelude
  split <;> simp [exec_argvs]

theorem unlinks_prelude (w : World) : unlinks (prelude w) = [] := by
  unfold prelude
  split <;> simp [unlinks]

theorem link_argvs_main (cfg : Config) (w : World) (argv : List String)
    (hmode : pipeline_mode cfg w) (hargc : 2 ≤ argv.length) :
    (∀ v ∈ exec_argvs Stage.LINK (main cfg w argv).events,
      v = cvec (edit_params cfg w (env_after_guard w) (resolve_real_ld cfg w.env)
        (resolve_afl_path cfg w.env) argv).ld_params) ∧
    (Stage.LINK ∈ forks (main cfg w argv).events →
      exec_argvs Stage.LINK (main cfg w argv).events ≠ []) := by
  rw [main_pipeline_mode cfg w argv hmode hargc]
  simp only [forks_append, forks_prelude, List.nil_append, exec_argvs_append, exec_argvs_prelude]
  generalize edit_params cfg w (env_after_guard w) (resolve_real_ld cfg w.env)
    (resolve_afl_path cfg w.env) argv = p
  have hc := ld_child_argvs cfg (env_after_guard w) (resolve_real_ld cfg w.env)
    (resolve_afl_path cfg w.env) p.ld_params (resolve_real_ld_length cfg w.env)
  rcases exec_argvs_link_pipeline cfg w (env_after_guard w) p (resolve_real_ld cfg w.env)
    (resolve_afl_path cfg w.env) with ⟨h1, h2⟩ | ⟨h1, h2⟩
  · rw [h2]
    exact ⟨by simp, fun h => absurd h h1⟩
  · rw [h2]
    rcases hc with hc | hc <;> rw [hc] <;> simp

theorem cvec_set_version (r v : String) (t : List (Option String)) (ht : t ≠ []) :
    cvec (((some r :: t).set 1 (some v)).set 2 none) = [r, v] := by
  cases t with
  | nil => exact absurd rfl ht
  | cons x t =>
    cases t with
    | nil => simp [cvec]
    | cons y t => simp [cvec]

theorem classify_loop_version (fs : FileSys) :
    ∀ (ts : List String), "-version" ∈ ts → ∀ (r : String) (L B : List String) (k m : Nat),
      ts.length ≤ k → ts.length ≤ m →
      (classify_loop fs ts
          (LoopState.mk ((r :: L).map some ++ List.replicate k none)
            (B.map some ++ List.replicate m none) (r :: L).length B.length)).2 = true ∧
        cvec (classify_loop fs ts
          (LoopState.mk ((r :: L).map some ++ List.replicate k none)
            (B.map some ++ List.replicate m none) (r :: L).length B.length)).1.ld_params
          = [r, "-version"] := by
  intro ts
  induction ts with
  | nil => intro h; simp at h
  | cons a rest ih =>
    intro hv r L B k m hk hm
    simp only [List.length_cons] at hk hm
    by_cases ha : a = "-version"
    · rw [classify_loop]
      simp only [ha, if_true, true_and]
      rw [List.map_cons, List.cons_append]
      apply cvec_set_version
      obtain ⟨k1, rfl⟩ : ∃ k1, k = k1 + 1 := ⟨k - 1, by omega⟩
      simp [List.replicate_succ]
    · have hrest : "-version" ∈ rest := by
        rcases List.mem_cons.mp hv with h | h
        · exact absurd h.symm ha
        · exact h
      by_cases hafl : a = "--afl"
      · rw [classify_loop]
        simp only [ha, hafl, if_false, ne_eq, not_true_eq_false]
        exact ih hrest r L B k m (by omega) (by omega)
      · by_cases hc : a.toList.head? = some '-' ∨ is_llvm_file fs a = 0
        · obtain ⟨k1, rfl⟩ : ∃ k1, k = k1 + 1 := ⟨k - 1, by omega⟩
          rw [classify_loop]
          simp only [ha, hafl, if_false, ne_eq, not_false_eq_true, if_true, hc,
            set_length_map_some]
          have := ih hrest r (L ++ [a]) B k1 m (by omega) (by omega)
          simpa using this
        · obtain ⟨m1, rfl⟩ : ∃ m1, m = m1 + 1 := ⟨m - 1, by omega⟩
          rw [classify_loop]
          simp only [ha, hafl, if_false, ne_eq, not_false_eq_true, if_true, hc,
            set_length_map_some]
          have := ih hrest r L (B ++ [a]) k m1 (by omega) (by omega)
          simpa using this

theorem edit_params_version (cfg : Config) (w : World) (env : Env) (real_ld afl_path : String)
    (argv0 last : String) (mid : List String) (hv : "-version" ∈ mid) :
    (edit_params cfg w env real_ld afl_path (argv0 :: (mid ++ [last]))).just_version = true ∧
      cvec (edit_params cfg w env real_ld afl_path (argv0 :: (mid ++ [last]))).ld_params
        = [real_ld, "-version"] ∧
      (edit_params cfg w env real_ld afl_path (argv0 :: (mid ++ [last]))).modified_file = none := by
  have hlen : (argv0 :: (mid ++ [last])).length = mid.length + 2 := by simp
  have hld : ((List.replicate ((argv0 :: (mid ++ [last])).length + 32) (none : Option String)).set 0
        (some real_ld)).set (argv0 :: (mid ++ [last])).length none
      = (real_ld :: []).map some ++ List.replicate (mid.length + 33) none := by
    rw [hlen, show mid.length + 2 + 32 = (mid.length + 33) + 1 from rfl, List.replicate_succ,
      List.set_cons_zero, show mid.length + 2 = (mid.length + 1) + 1 from rfl, List.set_cons_succ,
      List.set_replicate_self]
    rfl
  have hlink : (((List.replicate ((argv0 :: (mid ++ [last])).length + 32) (none : Option String)).set 0
        (some (cfg.LLVM_BINDIR ++ "/" ++ "llvm-link"))).set 1 (some "-o")).set 2
        (some (tmp_name (tmp_dir env) w.pid w.time1 "ll"))
      = [cfg.LLVM_BINDIR ++ "/" ++ "llvm-link", "-o", tmp_name (tmp_dir env) w.pid w.time1 "ll"].map some
          ++ List.replicate (mid.length + 31) none := by
    rw [hlen, show mid.length + 2 + 32 = (mid.length + 31) + 1 + 1 + 1 from rfl]
    simp [List.replicate_succ]
  obtain ⟨h1, h2⟩ := classify_loop_version w.fs mid hv real_ld []
    [cfg.LLVM_BINDIR ++ "/" ++ "llvm-link", "-o", tmp_name (tmp_dir env) w.pid w.time1 "ll"]
    (mid.length + 33) (mid.length + 31) (by omega) (by omega)
  simp only [List.length_singleton, List.length_cons, List.length_nil] at h1 h2
  simp only [edit_params, loop_range_cons_append, hld, hlink]
  simp only [Nat.zero_add] at h1 h2
  rw [if_pos h1]
  exact ⟨rfl, h2, rfl⟩

theorem tmp_dir_env_after_guard (w : World) : tmp_dir (env_after_guard w) = tmp_dir w.env := by
  simp [tmp_dir, env_after_guard, setenv]

theorem pipeline_version (cfg : Config) (w : World) (env : Env) (p : Params)
    (real_ld afl_path : String) (hj : p.just_version = true) :
    forks (pipeline cfg w env p real_ld afl_path).1 = [Stage.LINK] ∧
      unlinks (pipeline cfg w env p real_ld afl_path).1 = [] ∧
      Event.msg Msg.no_lto_input_file_found ∉ (pipeline cfg w env p real_ld afl_path).1 := by
  unfold pipeline
  simp only [hj, if_true]
  refine ⟨forks_link_stage _ _ _ _ _ _ _, unlinks_link_stage_version _ _ _ _ _ _ _ hj, ?_⟩
  unfold link_stage
  simp only [hj, if_true]
  split
  · simp
  · split <;> simp

theorem run_attempts_final (ok : ExecAttempt → Bool) (l : List ExecAttempt) (last : Final) :
    (run_attempts ok l last).2 = last ∨ ∃ a, (run_attempts ok l last).2 = Final.execd a := by
  induction l with
  | nil => left; rfl
  | cons a l ih =>
    rw [run_attempts]
    split
    · right; exact ⟨a, rfl⟩
    · exact ih

theorem direct_exec_last (cfg : Config) (env : Env) (real_ld afl_path : String) (h : Int)
    (argv : List String) :
    (direct_exec cfg env real_ld afl_path h argv).last ≠ Final.fatal Fatal.calls_itself_in_a_loop := by
  unfold direct_exec
  simp only
  split <;> simp

theorem link_stage_final_ne_loop (cfg : Config) (w : World) (env : Env) (p : Params)
    (real_ld afl_path : String) (k : Nat) :
    (link_stage cfg w env p real_ld afl_path k).2 ≠ Final.fatal Fatal.calls_itself_in_a_loop := by
  unfold link_stage
  simp only
  split
  · simp
  · split <;> simp

theorem pipeline_final_ne_loop (cfg : Config) (w : World) (env : Env) (p : Params)
    (real_ld afl_path : String) :
    (pipeline cfg w env p real_ld afl_path).2 ≠ Final.fatal Fatal.calls_itself_in_a_loop := by
  unfold pipeline
  split
  · exact link_stage_final_ne_loop _ _ _ _ _ _ _
  · split
    · exact link_stage_final_ne_loop _ _ _ _ _ _ _
    · simp only
      split
      · simp
      · split
        · simp
        · split
          · simp
          · split
            · simp
            · split
              · simp
              · split
                · simp
                · exact link_stage_final_ne_loop _ _ _ _ _ _ _

theorem main_final_ne_loop (cfg : Config) (w : World) (argv : List String)
    (h : read_caller w.env ≤ 1) :
    (main cfg w argv).final ≠ Final.fatal Fatal.calls_itself_in_a_loop := by
  unfold main
  simp only [if_neg (not_lt.mpr h)]
  split
  · simp
  · split
    · simp
    · split
      · simp only
        rcases run_attempts_final w.execvp
          (direct_exec cfg (setenv w.env "AFL_LD_CALLER" (val_string (read_caller w.env)))
            (resolve_real_ld cfg w.env) (resolve_afl_path cfg w.env) (read_caller w.env) argv).attempts
          (direct_exec cfg (setenv w.env "AFL_LD_CALLER" (val_string (read_caller w.env)))
            (resolve_real_ld cfg w.env) (resolve_afl_path cfg w.env) (read_caller w.env) argv).last
          with h1 | ⟨a, h1⟩
        · rw [h1]
          exact direct_exec_last _ _ _ _ _ _
        · rw [h1]
          simp
      · exact pipeline_final_ne_loop _ _ _ _ _ _

theorem main_published (cfg : Config) (w : World) (argv : List String)
    (h : points_to_afl_ld w (resolve_real_ld cfg w.env) = false) :
    published (main cfg w argv).events = some (val_string (read_caller w.env)) := by
  unfold main
  simp only [h, Bool.false_eq_true, if_false]
  split
  · simp [published]
  · split
    · simp [published]
    · split <;> simp [published]

theorem main_loop (cfg : Config) (w : World) (argv : List String)
    (h : points_to_afl_ld w (resolve_real_ld cfg w.env) = false) (h2 : 1 < read_caller w.env) :
    main cfg w argv = Run.mk [Event.setenv "AFL_LD_CALLER" (val_string (read_caller w.env))]
      (Final.fatal Fatal.calls_itself_in_a_loop) := by
  unfold main
  simp only [h, Bool.false_eq_true, if_false, gt_iff_lt, h2, if_true]

theorem bytes_semicolon_Mo : bytes "; Mo" = [0x3B, 0x20, 0x4D, 0x6F] := by decide

theorem strncmp_header (a b c d e : Nat) :
    strncmp [a, b, c, d, e] [0x3B, 0x20, 0x4D, 0x6F] 4 = 0
      ↔ a = 0x3B ∧ b = 0x20 ∧ c = 0x4D ∧ d = 0x6F := by
  simp only [strncmp, List.headD_cons, List.tail_cons]
  by_cases ha : a = 0x3B
  · by_cases hb : b = 0x20
    · by_cases hc : c = 0x4D
      · by_cases hd : d = 0x6F
        · simp [ha, hb, hc, hd]
        · have : ((d : Int) - 0x6F ≠ 0) := by omega
          simp [ha, hb, hc, hd, this]
      · have : ((c : Int) - 0x4D ≠ 0) := by omega
        simp [ha, hb, hc, this]
    · have : ((b : Int) - 0x20 ≠ 0) := by omega
      simp [ha, hb, this]
  · have : ((a : Int) - 0x3B ≠ 0) := by omega
    simp [ha, this]

theorem is_llvm_file_eq_one (fs : FileSys) (t : String) :
    is_llvm_file fs t = 1 ↔
      ∃ node, fs t = some node ∧ (read node 5).1 = 5 ∧
        ((read node 5).2.take 4 = [0x3B, 0x20, 0x4D, 0x6F] ∨
          (read node 5).2.take 4 = [0x42, 0x43, 0xC0, 0xDE]) := by
  unfold is_llvm_file
  cases hfs : fs t with
  | none => simp
  | some node =>
    simp only [Option.some.injEq, exists_eq_left']
    cases node with
    | unreadable => simp [read]
    | data content =>
      by_cases hlen : (read (FileNode.data content) 5).1 = 5
      swap
      · simp [hlen]
      · simp only [hlen, ne_eq, not_true_eq_false, if_false, true_and]
        have hl : 5 ≤ content.length := by
          simp only [read, List.length_take] at hlen
          omega
        obtain ⟨a, b, c, d, e, rest, rfl⟩ :
            ∃ a b c d e rest, content = a :: b :: c :: d :: e :: rest := by
          match content, hl with
          | a :: b :: c :: d :: e :: rest, _ => exact ⟨a, b, c, d, e, rest, rfl⟩
        simp only [read, List.take_succ_cons, List.take_zero, List.set_cons_succ, List.set_cons_zero,
          bytes_semicolon_Mo, strncmp_header]
        by_cases h1 : a = 0x3B ∧ b = 0x20 ∧ c = 0x4D ∧ d = 0x6F
        · simp [h1]
        · by_cases h2 : a = 0x42 ∧ b = 0x43 ∧ c = 0xC0 ∧ d = 0xDE
          · simp [h2]
          · simp only [h1, if_false]
            simp only [List.getD_cons_zero, List.getD_cons_succ, h2, if_false]
            simp only [List.cons.injEq, and_true]
            constructor
            · intro h; simp at h
            · rintro (h | h)
              · exact absurd h h1
              · exact absurd h h2

theorem is_llvm_file_zero_or_one (fs : FileSys) (t : String) :
    is_llvm_file fs t = 0 ∨ is_llvm_file fs t = 1 := by
  unfold is_llvm_file
  split
  · left; rfl
  · simp only
    split
    · left; rfl
    · split
      · right; rfl
      · split
        · right; rfl
        · left; rfl

theorem to_ld_params_eq_false (fs : FileSys) (t : String) :
    to_ld_params fs t = false ↔ ¬ t.toList.head? = some '-' ∧ is_llvm_file fs t = 1 := by
  rcases is_llvm_file_zero_or_one fs t with h | h <;> simp [to_ld_params, h]

theorem merge_forked_iff (cfg : Config) (w : World) (argv0 last : String) (mid : List String)
    (hmode : pipeline_mode cfg w) (hv : "-version" ∉ mid) :
    Stage.MERGE ∈ forks (main cfg w (argv0 :: (mid ++ [last]))).events ↔
      (mid.filter (fun a => a ≠ "--afl" && !to_ld_params w.fs a)).length ≠ 3 := by
  have hargc : 2 ≤ (argv0 :: (mid ++ [last])).length := by simp
  obtain ⟨-, -, hcnt, hj, -⟩ := edit_params_no_version cfg w (env_after_guard w)
    (resolve_real_ld cfg w.env) (resolve_afl_path cfg w.env) argv0 last mid hv
  rw [main_pipeline_mode cfg w _ hmode hargc]
  simp only [forks_append, forks_prelude, List.nil_append]
  generalize edit_params cfg w (env_after_guard w) (resolve_real_ld cfg w.env)
    (resolve_afl_path cfg w.env) (argv0 :: (mid ++ [last])) = p at hcnt hj
  constructor
  · intro hm h3
    have h6 : p.link_par_cnt = 6 := by omega
    rw [(pipeline_skip cfg w _ p _ _ (Or.inr h6)).1] at hm
    simp at hm
  · intro h3
    have h6 : p.link_par_cnt ≠ 6 := by omega
    rcases pipeline_merge_cases cfg w (env_after_guard w) p (resolve_real_ld cfg w.env)
      (resolve_afl_path cfg w.env) hj h6 with h | h | ⟨h, -⟩ <;> rw [h] <;> simp

theorem edit_params_last_irrelevant (cfg : Config) (w : World) (env : Env)
    (real_ld afl_path argv0 last last' : String) (mid : List String) :
    edit_params cfg w env real_ld afl_path (argv0 :: (mid ++ [last]))
      = edit_params cfg w env real_ld afl_path (argv0 :: (mid ++ [last'])) := by
  simp only [edit_params, loop_range_cons_append, List.length_cons, List.length_append,
    List.length_singleton]

theorem head_bin_append (s : String) : ("/bin/" ++ s).toList.head? = some '/' := by
  simp [String.toList]

theorem edit_params_opt_params (cfg : Config) (w : World) (env : Env) (real_ld afl_path : String)
    (argv : List String) :
    cvec (edit_params cfg w env real_ld afl_path argv).opt_params
      = [cfg.LLVM_BINDIR ++ "/" ++ "opt",
          "--load=" ++ afl_path ++ "/afl-llvm-lto-instrumentation-pass.so", "--afl-lto",
          tmp_name (tmp_dir env) w.pid w.time1 "ll", "-o",
          tmp_name (tmp_dir env) w.pid w.time0 "bc"] := by
  unfold edit_params
  simp only
  split <;> simp [List.replicate, cvec]

theorem failed_execs_append (a b : List Event) :
    failed_execs (a ++ b) = failed_execs a ++ failed_execs b := by
  induction a with
  | nil => rfl
  | cons e a ih => cases e <;> simp [failed_execs, ih]

theorem failed_execs_prelude (w : World) : failed_execs (prelude w) = [] := by
  unfold prelude
  split <;> simp [failed_execs]

theorem children_append (s : Stage) (a b : List Event) :
    children s (a ++ b) = children s a ++ children s b := by
  induction a with
  | nil => rfl
  | cons e a ih =>
    cases e <;> simp [children, ih]
    split <;> simp

theorem children_prelude (s : Stage) (w : World) : children s (prelude w) = [] := by
  unfold prelude
  split <;> simp [children]

theorem main_direct_mode (cfg : Config) (w : World) (argv : List String)
    (hself : points_to_afl_ld w (resolve_real_ld cfg w.env) = false)
    (hcaller : read_caller w.env ≤ 1) (hargc : 2 ≤ argv.length) (hld : w.env "AFL_LD" = none) :
    main cfg w argv = Run.mk
      (prelude w ++ (run_attempts w.execvp
        (direct_exec cfg (env_after_guard w) (resolve_real_ld cfg w.env)
          (resolve_afl_path cfg w.env) (read_caller w.env) argv).attempts
        (direct_exec cfg (env_after_guard w) (resolve_real_ld cfg w.env)
          (resolve_afl_path cfg w.env) (read_caller w.env) argv).last).1)
      (run_attempts w.execvp
        (direct_exec cfg (env_after_guard w) (resolve_real_ld cfg w.env)
          (resolve_afl_path cfg w.env) (read_caller w.env) argv).attempts
        (direct_exec cfg (env_after_guard w) (resolve_real_ld cfg w.env)
          (resolve_afl_path cfg w.env) (read_caller w.env) argv).last).2 := by
  have h4 : setenv w.env "AFL_LD_CALLER" (val_string (read_caller w.env)) "AFL_LD" = none := by
    simpa [setenv] using hld
  unfold main
  simp only [hself, Bool.false_eq_true, if_false, if_neg (not_lt.mpr hcaller),
    if_neg (not_lt.mpr hargc), h4, if_true]
  rfl

/-- The `execvp` calls made while running a list of attempts. -/
theorem run_attempts_execs (ok : ExecAttempt → Bool) (l : List ExecAttempt) (last : Final)
    (hlast : ∀ a, last ≠ Final.execd a) :
    (∀ a ∈ own_execs (Run.mk (run_attempts ok l last).1 (run_attempts ok l last).2), a ∈ l) ∧
    (own_execs (Run.mk (run_attempts ok l last).1 (run_attempts ok l last).2)).head? = l.head? ∧
    ((∀ a ∈ l, ok a = false) →
      own_execs (Run.mk (run_attempts ok l last).1 (run_attempts ok l last).2) = l ∧
      (run_attempts ok l last).2 = last) := by
  induction l with
  | nil =>
    simp only [run_attempts, own_execs, failed_execs]
    cases last <;> simp_all
  | cons a l ih =>
    obtain ⟨ih1, ih2, ih3⟩ := ih
    rw [run_attempts]
    by_cases hok : ok a = true
    · simp [hok, own_execs, failed_execs]
    · simp only [hok, Bool.false_eq_true, if_false]
      simp only [own_execs, failed_execs, List.cons_append] at ih1 ih2 ih3 ⊢
      refine ⟨?_, by simp, ?_⟩
      · intro b hb
        rcases List.mem_cons.mp hb with h | h
        · simp [h]
        · exact List.mem_cons_of_mem _ (ih1 b h)
      · intro hall
        have := ih3 (fun b hb => hall b (List.mem_cons_of_mem _ hb))
        exact ⟨by rw [this.1], this.2⟩

theorem run_attempts_first (ok : ExecAttempt → Bool) (a : ExecAttempt) (l : List ExecAttempt)
    (last : Final) (h : ok a = true) :
    run_attempts ok (a :: l) last = ([], Final.execd a) := by
  rw [run_attempts]
  simp [h]

theorem direct_exec_last_not_execd (cfg : Config) (env : Env) (real_ld afl_path : String)
    (h : Int) (argv : List String) (a : ExecAttempt) :
    (direct_exec cfg env real_ld afl_path h argv).last ≠ Final.execd a := by
  unfold direct_exec
  simp only
  split <;> simp

theorem direct_exec_attempts (cfg : Config) (env : Env) (real_ld afl_path : String)
    (d : Int) (argv : List String) (hlen : 2 ≤ real_ld.length) :
    (∃ rest, (direct_exec cfg env real_ld afl_path d argv).attempts
      = ExecAttempt.mk real_ld argv (env "PATH") :: rest) ∧
    ∀ a ∈ (direct_exec cfg env real_ld afl_path d argv).attempts, a.argv = argv := by
  unfold direct_exec
  have h1 : real_ld.length > 1 := by omega
  simp only [h1, if_true]
  split
  · constructor
    · exact ⟨_, rfl⟩
    · intro a ha
      simp only [List.mem_append, List.mem_singleton] at ha
      rcases ha with e | e
      · simp [e]
      · split at e <;> simp at e
        simp [e]
  · constructor
    · exact ⟨_, rfl⟩
    · intro a ha
      simp only [List.mem_append, List.mem_singleton] at ha
      rcases ha with ((e | e) | e) | e
      · simp [e]
      · split at e <;> simp at e
        simp [e]
      · split at e <;> simp at e
        simp [e]
      · simp [e]

theorem own_execs_link_stage (cfg : Config) (w : World) (env : Env) (p : Params)
    (real_ld afl_path : String) (k : Nat) :
    failed_execs (link_stage cfg w env p real_ld afl_path k).1 = [] ∧
      ∀ a, (link_stage cfg w env p real_ld afl_path k).2 ≠ Final.execd a := by
  unfold link_stage
  simp only
  split
  · simp [failed_execs]
  · split
    · simp [failed_execs]
    · simp only [failed_execs_append]
      refine ⟨?_, by simp⟩
      split <;> [skip; split] <;> simp [failed_execs]

theorem own_execs_pipeline (cfg : Config) (w : World) (env : Env) (p : Params)
    (real_ld afl_path : String) :
    failed_execs (pipeline cfg w env p real_ld afl_path).1 = [] ∧
      ∀ a, (pipeline cfg w env p real_ld afl_path).2 ≠ Final.execd a := by
  have hl := own_execs_link_stage cfg w env p real_ld afl_path
  unfold pipeline
  split
  · exact hl 0
  · split
    · simp only [failed_execs]
      exact hl 0
    · simp only
      split
      · simp [failed_execs]
      · split
        · simp [failed_execs]
        · split
          · simp [failed_execs]
          · split
            · simp [failed_execs]
            · split
              · simp [failed_execs]
              · split
                · simp [failed_execs]
                · simp only [failed_execs_append, (hl 2).1]
                  exact ⟨by simp [failed_execs], (hl 2).2⟩

theorem forks_pipeline_ne_nil (cfg : Config) (w : World) (env : Env) (p : Params)
    (real_ld afl_path : String) : forks (pipeline cfg w env p real_ld afl_path).1 ≠ [] := by
  by_cases hskip : p.just_version = true ∨ p.link_par_cnt = 6
  · rw [(pipeline_skip cfg w env p real_ld afl_path hskip).1]
    simp
  · have hj : p.just_version = false := by
      cases hjv : p.just_version
      · rfl
      · exact absurd (Or.inl hjv) hskip
    have h6 : p.link_par_cnt ≠ 6 := fun h => hskip (Or.inr h)
    rcases pipeline_merge_cases cfg w env p real_ld afl_path hj h6 with h | h | ⟨h, -⟩ <;>
      rw [h] <;> simp

theorem children_link_stage (cfg : Config) (w : World) (env : Env) (p : Params)
    (real_ld afl_path : String) (k : Nat) :
    children Stage.LINK (link_stage cfg w env p real_ld afl_path k).1
      = [ld_child cfg env real_ld afl_path p.ld_params] := by
  unfold link_stage
  simp only
  split
  · simp [children]
  · split
    · simp [children]
    · simp only [children_append]
      split <;> [skip; split] <;> simp [children]

theorem children_link_pipeline (cfg : Config) (w : World) (env : Env) (p : Params)
    (real_ld afl_path : String) :
    (Stage.LINK ∉ forks (pipeline cfg w env p real_ld afl_path).1 ∧
      children Stage.LINK (pipeline cfg w env p real_ld afl_path).1 = []) ∨
    (Stage.LINK ∈ forks (pipeline cfg w env p real_ld afl_path).1 ∧
      children Stage.LINK (pipeline cfg w env p real_ld afl_path).1
        = [ld_child cfg env real_ld afl_path p.ld_params]) := by
  unfold pipeline
  split
  · right
    simp [forks_link_stage, children_link_stage]
  · split
    · right
      simp [forks, children, forks_link_stage, children_link_stage]
    · simp only
      split
      · left; simp [forks, children]
      · split
        · left; simp [forks, children]
        · split
          · left; simp [forks, children]
          · split
            · left; simp [forks, children]
            · split
              · left; simp [forks, children]
              · split
                · left; simp [forks, children]
                · right
                  simp [forks, children, forks_append, children_append, forks_link_stage,
                    children_link_stage]

theorem children_link_main (cfg : Config) (w : World) (argv : List String)
    (hmode : pipeline_mode cfg w) (hargc : 2 ≤ argv.length) :
    (∀ c ∈ children Stage.LINK (main cfg w argv).events,
      c = ld_child cfg (env_after_guard w) (resolve_real_ld cfg w.env) (resolve_afl_path cfg w.env)
        (edit_params cfg w (env_after_guard w) (resolve_real_ld cfg w.env)
          (resolve_afl_path cfg w.env) argv).ld_params) ∧
    (Stage.LINK ∈ forks (main cfg w argv).events →
      children Stage.LINK (main cfg w argv).events ≠ []) := by
  rw [main_pipeline_mode cfg w argv hmode hargc]
  simp only [forks_append, forks_prelude, List.nil_append, children_append, children_prelude]
  rcases children_link_pipeline cfg w (env_after_guard w)
    (edit_params cfg w (env_after_guard w) (resolve_real_ld cfg w.env)
      (resolve_afl_path cfg w.env) argv)
    (resolve_real_ld cfg w.env) (resolve_afl_path cfg w.env) with ⟨h1, h2⟩ | ⟨h1, h2⟩
  · rw [h2]
    exact ⟨by simp, fun h => absurd h h1⟩
  · rw [h2]
    simp

theorem ld_child_eq (cfg : Config) (env : Env) (real_ld afl_path : String)
    (ld_params : List (Option String)) (t : Option String) (hlen : 2 ≤ real_ld.length)
    (ht : path_fallback cfg afl_path (env "PATH") = some t) :
    ld_child cfg env real_ld afl_path ld_params
      = ChildProg.mk [ExecAttempt.mk real_ld (cvec ld_params) (env "PATH"),
          ExecAttempt.mk "ld" (cvec ld_params) t] (Final.fatal (Fatal.failed_to_execute "ld")) := by
  unfold ld_child
  have h1 : real_ld.length > 1 := by omega
  simp only [h1, if_true, ht]
  rfl

theorem direct_exec_eq (cfg : Config) (env : Env) (real_ld afl_path : String) (d : Int)
    (argv : List String) (t : Option String) (hlen : 2 ≤ real_ld.length)
    (ht : path_fallback cfg afl_path (env "PATH") = some t) :
    direct_exec cfg env real_ld afl_path d argv
      = ChildProg.mk
          ([ExecAttempt.mk real_ld argv (env "PATH")] ++
            (if d = 0 then [ExecAttempt.mk "ld" argv (env "PATH")] else []) ++
            (if d = 1 then [ExecAttempt.mk "ld" argv t] else []) ++
            [ExecAttempt.mk "/bin/ld" argv t])
          (Final.fatal (Fatal.failed_to_execute "ld")) := by
  unfold direct_exec
  have h1 : real_ld.length > 1 := by omega
  simp only [h1, if_true, ht]

theorem unlinks_link_stage (cfg : Config) (w : World) (env : Env) (p : Params)
    (real_ld afl_path : String) (k : Nat) (hj : p.just_version = false)
    (hf : 0 < (w.child k).fork_ret) (hw : 0 < (w.child k).wait_ret) :
    unlinks (link_stage cfg w env p real_ld afl_path k).1
      = if env "AFL_KEEP_ASSEMBLY" = none then [some p.linked_file, p.modified_file] else [] := by
  unfold link_stage
  simp only [hj, Bool.false_eq_true, if_false, if_neg (not_lt.mpr (le_of_lt hf)),
    if_neg (not_le.mpr hw), unlinks_append]
  split <;> simp [unlinks]

theorem unlinks_link_stage_subset (cfg : Config) (w : World) (env : Env) (p : Params)
    (real_ld afl_path : String) (k : Nat) :
    ∀ f ∈ unlinks (link_stage cfg w env p real_ld afl_path k).1,
      p.just_version = false ∧ (f = some p.linked_file ∨ f = p.modified_file) := by
  unfold link_stage
  simp only
  split
  · simp [unlinks]
  · split
    · simp [unlinks]
    · simp only [unlinks_append]
      split
      · simp [unlinks]
      · rename_i hj
        split <;> simp [unlinks, hj]

theorem unlinks_pipeline (cfg : Config) (w : World) (env : Env) (p : Params)
    (real_ld afl_path : String) :
    (Stage.LINK ∉ forks (pipeline cfg w env p real_ld afl_path).1 ∧
      unlinks (pipeline cfg w env p real_ld afl_path).1 = []) ∨
    (Stage.LINK ∈ forks (pipeline cfg w env p real_ld afl_path).1 ∧
      unlinks (pipeline cfg w env p real_ld afl_path).1
        = unlinks (link_stage cfg w env p real_ld afl_path
            ((forks (pipeline cfg w env p real_ld afl_path).1).length - 1)).1) := by
  unfold pipeline
  split
  · right
    simp [forks_link_stage]
  · split
    · right
      simp [forks, unlinks, forks_link_stage]
    · simp only
      split
      · left; simp [forks, unlinks]
      · split
        · left; simp [forks, unlinks]
        · split
          · left; simp [forks, unlinks]
          · split
            · left; simp [forks, unlinks]
            · split
              · left; simp [forks, unlinks]
              · split
                · left; simp [forks, unlinks]
                · right
                  simp [forks, unlinks, forks_append, unlinks_append, forks_link_stage]

theorem main_unlinks_nil (cfg : Config) (w : World) (argv : List String)
    (h : ¬ (pipeline_mode cfg w ∧ 2 ≤ argv.length)) : unlinks (main cfg w argv).events = [] := by
  unfold main
  simp only
  split
  · rfl
  · rename_i h1
    split
    · simp [unlinks]
    · rename_i h2
      split
      · simp only [unlinks_append]
        split <;> simp [unlinks]
      · rename_i h3
        split
        · have hra : ∀ (l : List ExecAttempt) (last : Final),
              unlinks (run_attempts w.execvp l last).1 = [] := by
            intro l last
            induction l with
            | nil => rfl
            | cons a l ih =>
              rw [run_attempts]
              split
              · rfl
              · simpa [unlinks] using ih
          simp only [unlinks_append, hra]
          split <;> simp [unlinks]
        · rename_i h4
          exfalso
          apply h
          refine ⟨⟨by simpa using h1, by simpa using h2, ?_⟩, by omega⟩
          simpa [setenv] using h4

theorem edit_params_files (cfg : Config) (w : World) (env : Env) (real_ld afl_path : String)
    (argv : List String) :
    (edit_params cfg w env real_ld afl_path argv).linked_file
        = tmp_name (tmp_dir env) w.pid w.time1 "ll" ∧
      ((edit_params cfg w env real_ld afl_path argv).just_version = false →
        (edit_params cfg w env real_ld afl_path argv).modified_file
          = some (tmp_name (tmp_dir env) w.pid w.time0 "bc")) := by
  unfold edit_params
  simp only
  split <;> simp

theorem unlinks_main_subset (cfg : Config) (w : World) (argv : List String) :
    ∀ f ∈ unlinks (main cfg w argv).events,
      f = some (tmp_name (tmp_dir w.env) w.pid w.time1 "ll") ∨
        f = some (tmp_name (tmp_dir w.env) w.pid w.time0 "bc") := by
  by_cases hm : pipeline_mode cfg w ∧ 2 ≤ argv.length
  swap
  · rw [main_unlinks_nil cfg w argv hm]
    simp
  obtain ⟨hmode, hargc⟩ := hm
  rw [main_pipeline_mode cfg w argv hmode hargc]
  simp only [unlinks_append, unlinks_prelude, List.nil_append]
  obtain ⟨hl, hmf⟩ := edit_params_files cfg w (env_after_guard w) (resolve_real_ld cfg w.env)
    (resolve_afl_path cfg w.env) argv
  rw [tmp_dir_env_after_guard] at hl hmf
  generalize edit_params cfg w (env_after_guard w) (resolve_real_ld cfg w.env)
    (resolve_afl_path cfg w.env) argv = p at hl hmf
  intro f hf
  rcases unlinks_pipeline cfg w (env_after_guard w) p (resolve_real_ld cfg w.env)
    (resolve_afl_path cfg w.env) with ⟨-, h2⟩ | ⟨-, h2⟩
  · rw [h2] at hf
    simp at hf
  · rw [h2] at hf
    obtain ⟨hj, h3⟩ := unlinks_link_stage_subset _ _ _ _ _ _ _ f hf
    rcases h3 with h3 | h3
    · left; rw [h3, hl]
    · right; rw [h3, hmf hj]

theorem pipeline_merge_passes (cfg : Config) (w : World) (env : Env) (p : Params)
    (real_ld afl_path : String) (hj : p.just_version = false) (h6 : p.link_par_cnt ≠ 6)
    (hf : 0 < (w.child 0).fork_ret) (hw : 0 < (w.child 0).wait_ret)
    (hs : WEXITSTATUS (w.child 0).status = 0) :
    ∃ rest, forks (pipeline cfg w env p real_ld afl_path).1
        = Stage.MERGE :: Stage.INSTRUMENT :: rest ∧
      (0 < (w.child 1).fork_ret → 0 < (w.child 1).wait_ret →
        WEXITSTATUS (w.child 1).status = 0 →
        rest = [Stage.LINK] ∧
          (pipeline cfg w env p real_ld afl_path).2
            = (link_stage cfg w env p real_ld afl_path 2).2) := by
  unfold pipeline
  simp only [hj, Bool.false_eq_true, if_false, h6, if_neg (not_lt.mpr (le_of_lt hf)),
    if_neg (not_le.mpr hw), hs, ne_eq, not_true_eq_false]
  split
  · rename_i h1
    exact ⟨[], by simp [forks], fun h => absurd h (by omega)⟩
  · split
    · rename_i h2
      exact ⟨[], by simp [forks], fun _ h => absurd h (by omega)⟩
    · split
      · rename_i h3
        exact ⟨[], by simp [forks], fun _ _ h => absurd h h3⟩
      · exact ⟨[Stage.LINK], by simp [forks, forks_append, forks_link_stage],
          fun _ _ _ => ⟨rfl, rfl⟩⟩

theorem digitChar_digit (k : Nat) (hk : k < 10) :
    (Nat.digitChar k).isDigit = true ∧ (Nat.digitChar k).toNat - 48 = k := by
  interval_cases k <;> decide

theorem toDigitsCore_foldl (fuel : Nat) : ∀ (n : Nat) (ds : List Char), n < fuel →
    (Nat.toDigitsCore 10 fuel n ds).foldl (fun a c => a * 10 + (c.toNat - 48)) 0
      = ds.foldl (fun a c => a * 10 + (c.toNat - 48)) n := by
  induction fuel with
  | zero => intro n ds h; omega
  | succ fuel ih =>
    intro n ds h
    have hd := (digitChar_digit (n % 10) (Nat.mod_lt _ (by decide))).2
    simp only [Nat.toDigitsCore]
    split
    · rename_i h0
      simp only [List.foldl_cons, hd]
      congr 1
      omega
    · rename_i h0
      rw [ih (n / 10) _ (by omega)]
      simp only [List.foldl_cons, hd]
      congr 1
      omega

theorem toDigitsCore_isDigit (fuel : Nat) : ∀ (n : Nat) (ds : List Char),
    (∀ c ∈ ds, c.isDigit = true) → ∀ c ∈ Nat.toDigitsCore 10 fuel n ds, c.isDigit = true := by
  induction fuel with
  | zero => intro n ds h c hc; exact h c (by simpa [Nat.toDigitsCore] using hc)
  | succ fuel ih =>
    intro n ds h
    have hd := (digitChar_digit (n % 10) (Nat.mod_lt _ (by decide))).1
    have hcons : ∀ c ∈ Nat.digitChar (n % 10) :: ds, c.isDigit = true := by
      intro c hc
      rcases List.mem_cons.mp hc with e | e
      · rw [e]; exact hd
      · exact h c e
    simp only [Nat.toDigitsCore]
    split
    · exact hcons
    · exact ih _ _ hcons

theorem toString_data (n : Nat) : (toString n).data = Nat.toDigits 10 n := rfl

theorem toDigits_injective (a b : Nat) (h : Nat.toDigits 10 a = Nat.toDigits 10 b) : a = b := by
  have ha := toDigitsCore_foldl (a + 1) a [] (by omega)
  have hb := toDigitsCore_foldl (b + 1) b [] (by omega)
  simp only [List.foldl_nil] at ha hb
  unfold Nat.toDigits at h
  rw [← ha, ← hb, h]

theorem toDigits_isDigit (n : Nat) : ∀ c ∈ Nat.toDigits 10 n, c.isDigit = true :=
  toDigitsCore_isDigit (n + 1) n [] (by simp)

theorem split_at_separator (q : Char → Bool) (c : Char) (hc : q c = false) :
    ∀ (P1 P2 R1 R2 : List Char), (∀ x ∈ P1, q x = true) → (∀ x ∈ P2, q x = true) →
      P1 ++ c :: R1 = P2 ++ c :: R2 → P1 = P2 ∧ R1 = R2 := by
  intro P1
  induction P1 with
  | nil =>
    intro P2 R1 R2 _ h2 h
    cases P2 with
    | nil => simpa using h
    | cons y P2 =>
      simp only [List.nil_append, List.cons_append, List.cons.injEq] at h
      have := h2 y (by simp)
      rw [← h.1, hc] at this
      exact absurd this (by simp)
  | cons x P1 ih =>
    intro P2 R1 R2 h1 h2 h
    cases P2 with
    | nil =>
      simp only [List.nil_append, List.cons_append, List.cons.injEq] at h
      have := h1 x (by simp)
      rw [h.1, hc] at this
      exact absurd this (by simp)
    | cons y P2 =>
      simp only [List.cons_append, List.cons.injEq] at h
      obtain ⟨e1, e2⟩ := ih P2 R1 R2 (fun z hz => h1 z (List.mem_cons_of_mem _ hz))
        (fun z hz => h2 z (List.mem_cons_of_mem _ hz)) h.2
      exact ⟨by rw [h.1, e1], e2⟩

theorem tmp_name_eq_iff (dir : String) (p1 t1 p2 t2 : Nat) (e1 e2 : String) :
    tmp_name dir p1 t1 e1 = tmp_name dir p2 t2 e2 ↔
      p1 % 2 ^ 32 = p2 % 2 ^ 32 ∧ t1 % 2 ^ 32 = t2 % 2 ^ 32 ∧ e1 = e2 := by
  constructor
  · intro h
    have hd := congrArg String.data h
    simp only [tmp_name, String.data_append, toString_data, List.append_assoc] at hd
    have hd2 := List.append_cancel_left (List.append_cancel_left hd)
    simp only [List.singleton_append] at hd2
    obtain ⟨k1, k2⟩ := split_at_separator Char.isDigit '-' (by decide) _ _ _ _
      (toDigits_isDigit _) (toDigits_isDigit _) hd2
    obtain ⟨k3, k4⟩ := split_at_separator Char.isDigit '.' (by decide) _ _ _ _
      (toDigits_isDigit _) (toDigits_isDigit _) k2
    refine ⟨toDigits_injective _ _ k1, toDigits_injective _ _ k3, ?_⟩
    exact String.ext k4
  · rintro ⟨h1, h2, h3⟩
    simp only [tmp_name, h1, h2, h3]

theorem classify_loop_step (fs : FileSys) (t : String) (rest : List String) (st : LoopState)
    (hafl : t ≠ "--afl") (hver : t ≠ "-version") :
    classify_loop fs (t :: rest) st = classify_loop fs rest
      (if ¬ t.toList.head? = some '-' ∧ is_llvm_file fs t = 1 then
        LoopState.mk st.ld_params (st.link_params.set st.link_par_cnt (some t))
          st.ld_par_cnt (st.link_par_cnt + 1)
      else
        LoopState.mk (st.ld_params.set st.ld_par_cnt (some t)) st.link_params
          (st.ld_par_cnt + 1) st.link_par_cnt) := by
  rw [classify_loop]
  simp only [hver, hafl, if_false, ne_eq, not_false_eq_true, if_true]
  by_cases hd : t.toList.head? = some '-'
  · rw [if_pos (Or.inl hd), if_neg (fun h => h.1 hd)]
  · rcases is_llvm_file_zero_or_one fs t with h | h
    · rw [if_pos (Or.inr h), if_neg (fun x => by rw [h] at x; exact absurd x.2 (by decide))]
    · rw [if_neg (fun x => x.elim hd (fun y => by rw [h] at y; exact absurd y (by decide))),
        if_pos ⟨hd, h⟩]

theorem classify_loop_append (fs : FileSys) :
    ∀ (pre : List String), "-version" ∉ pre → ∀ (post : List String) (st : LoopState),
      classify_loop fs (pre ++ post) st = classify_loop fs post (classify_loop fs pre st).1 := by
  intro pre
  induction pre with
  | nil => intro _ post st; simp [classify_loop]
  | cons a rest ih =>
    intro hv post st
    have ha : a ≠ "-version" := fun h => hv (by simp [h])
    have hrest : "-version" ∉ rest := fun h => hv (by simp [h])
    rw [List.cons_append, classify_loop, classify_loop]
    simp only [ha, if_false]
    split
    · split
      · exact ih hrest post _
      · exact ih hrest post _
    · exact ih hrest post _

theorem not_mem_takeWhile_version (mid : List String) :
    "-version" ∉ mid.takeWhile (fun t => decide (t ≠ "-version")) := by
  intro h
  have := List.mem_takeWhile_imp h
  simp at this

theorem dropWhile_version (mid : List String) :
    ("-version" ∉ mid ∧ mid.dropWhile (fun t => decide (t ≠ "-version")) = [] ∧
        mid.takeWhile (fun t => decide (t ≠ "-version")) = mid) ∨
      ("-version" ∈ mid ∧
        ∃ post, mid.dropWhile (fun t => decide (t ≠ "-version")) = "-version" :: post) := by
  induction mid with
  | nil => left; simp
  | cons a rest ih =>
    by_cases ha : a = "-version"
    · right
      exact ⟨by simp [ha], rest, by simp [ha]⟩
    · have hp : decide (a ≠ "-version") = true := by simpa using ha
      rcases ih with ⟨h1, h2, h3⟩ | ⟨h1, post, h2⟩
      · left
        refine ⟨?_, ?_, ?_⟩
        · simp only [List.mem_cons, not_or]
          exact ⟨fun h => ha h.symm, h1⟩
        · simp only [List.dropWhile_cons, hp, if_true, h2]
        · simp only [List.takeWhile_cons, hp, if_true, h3]
      · right
        exact ⟨List.mem_cons_of_mem _ h1, post, by simp only [List.dropWhile_cons, hp, if_true, h2]⟩

theorem filter_to_link (fs : FileSys) (l : List String) :
    l.filter (fun a => a ≠ "--afl" && !to_ld_params fs a)
      = l.filter (fun t => decide (t ≠ "--afl" ∧
          ¬ t.toList.head? = some '-' ∧ is_llvm_file fs t = 1)) := by
  apply List.filter_congr
  intro t _
  have e := to_ld_params_eq_false fs t
  cases hb : to_ld_params fs t <;> simp [hb] at e ⊢ <;> tauto

theorem filter_to_ld (fs : FileSys) (l : List String) :
    l.filter (fun a => a ≠ "--afl" && to_ld_params fs a)
      = l.filter (fun t => decide (t ≠ "--afl" ∧
          ¬ (¬ t.toList.head? = some '-' ∧ is_llvm_file fs t = 1))) := by
  apply List.filter_congr
  intro t _
  have e := to_ld_params_eq_false fs t
  cases hb : to_ld_params fs t <;> simp [hb] at e ⊢ <;> tauto

theorem classify_loop_prefix (cfg : Config) (w : World) (env : Env) (real_ld : String)
    (argv0 last : String) (mid : List String) :
    ∃ st : LoopState,
      classify_loop w.fs mid
          (LoopState.mk
            (((List.replicate ((argv0 :: (mid ++ [last])).length + 32) (none : Option String)).set 0
              (some real_ld)).set (argv0 :: (mid ++ [last])).length none)
            ((((List.replicate ((argv0 :: (mid ++ [last])).length + 32) (none : Option String)).set 0
              (some (cfg.LLVM_BINDIR ++ "/" ++ "llvm-link"))).set 1 (some "-o")).set 2
              (some (tmp_name (tmp_dir env) w.pid w.time1 "ll")))
            1 3)
        = classify_loop w.fs (mid.dropWhile (fun t => decide (t ≠ "-version"))) st ∧
      cvec st.ld_params
        = real_ld :: (mid.takeWhile (fun t => decide (t ≠ "-version"))).filter
            (fun t => decide (t ≠ "--afl" ∧
              ¬ (¬ t.toList.head? = some '-' ∧ is_llvm_file w.fs t = 1))) ∧
      cvec st.link_params
        = (cfg.LLVM_BINDIR ++ "/" ++ "llvm-link") :: "-o" :: tmp_name (tmp_dir env) w.pid w.time1 "ll"
            :: (mid.takeWhile (fun t => decide (t ≠ "-version"))).filter
              (fun t => decide (t ≠ "--afl" ∧
                ¬ t.toList.head? = some '-' ∧ is_llvm_file w.fs t = 1)) ∧
      st.ld_par_cnt = 1 + ((mid.takeWhile (fun t => decide (t ≠ "-version"))).filter
            (fun t => decide (t ≠ "--afl" ∧
              ¬ (¬ t.toList.head? = some '-' ∧ is_llvm_file w.fs t = 1)))).length ∧
      st.link_par_cnt = 3 + ((mid.takeWhile (fun t => decide (t ≠ "-version"))).filter
            (fun t => decide (t ≠ "--afl" ∧
              ¬ t.toList.head? = some '-' ∧ is_llvm_file w.fs t = 1))).length := by
  have hlen : (argv0 :: (mid ++ [last])).length = mid.length + 2 := by simp
  have hld : ((List.replicate ((argv0 :: (mid ++ [last])).length + 32) (none : Option String)).set 0
        (some real_ld)).set (argv0 :: (mid ++ [last])).length none
      = [real_ld].map some ++ List.replicate (mid.length + 33) none := by
    rw [hlen, show mid.length + 2 + 32 = (mid.length + 33) + 1 from rfl, List.replicate_succ,
      List.set_cons_zero, show mid.length + 2 = (mid.length + 1) + 1 from rfl, List.set_cons_succ,
      List.set_replicate_self]
    rfl
  have hlink : (((List.replicate ((argv0 :: (mid ++ [last])).length + 32) (none : Option String)).set 0
        (some (cfg.LLVM_BINDIR ++ "/" ++ "llvm-link"))).set 1 (some "-o")).set 2
        (some (tmp_name (tmp_dir env) w.pid w.time1 "ll"))
      = [cfg.LLVM_BINDIR ++ "/" ++ "llvm-link", "-o", tmp_name (tmp_dir env) w.pid w.time1 "ll"].map some
          ++ List.replicate (mid.length + 31) none := by
    rw [hlen, show mid.length + 2 + 32 = (mid.length + 31) + 1 + 1 + 1 from rfl]
    simp [List.replicate_succ]
  have hpre : (mid.takeWhile (fun t => decide (t ≠ "-version"))).length ≤ mid.length :=
    (List.takeWhile_sublist _).length_le
  obtain ⟨k', m', -, -, hloop⟩ := classify_loop_no_version w.fs
    (mid.takeWhile (fun t => decide (t ≠ "-version"))) (not_mem_takeWhile_version mid) [real_ld]
    [cfg.LLVM_BINDIR ++ "/" ++ "llvm-link", "-o", tmp_name (tmp_dir env) w.pid w.time1 "ll"]
    (mid.length + 33) (mid.length + 31) (by omega) (by omega)
  have happ := classify_loop_append w.fs (mid.takeWhile (fun t => decide (t ≠ "-version")))
    (not_mem_takeWhile_version mid) (mid.dropWhile (fun t => decide (t ≠ "-version")))
    (LoopState.mk ([real_ld].map some ++ List.replicate (mid.length + 33) none)
      ([cfg.LLVM_BINDIR ++ "/" ++ "llvm-link", "-o", tmp_name (tmp_dir env) w.pid w.time1 "ll"].map some
        ++ List.replicate (mid.length + 31) none) 1 3)
  rw [List.takeWhile_append_dropWhile] at happ
  simp only [List.length_singleton, List.length_cons, List.length_nil] at hloop
  rw [hloop] at happ
  rw [hld, hlink]
  refine ⟨_, happ, ?_, ?_, ?_, ?_⟩
  · simp only [cvec_map_some_append, filter_to_ld]
    simp
  · simp only [cvec_map_some_append, filter_to_link]
    simp
  · simp only [filter_to_ld, List.length_append, List.length_cons, List.length_nil]
  · simp only [filter_to_link, List.length_append, List.length_cons, List.length_nil]

theorem edit_params_link_params (cfg : Config) (w : World) (env : Env)
    (real_ld afl_path : String) (argv0 last : String) (mid : List String) :
    cvec (edit_params cfg w env real_ld afl_path (argv0 :: (mid ++ [last]))).link_params
      = (cfg.LLVM_BINDIR ++ "/" ++ "llvm-link") :: "-o" :: tmp_name (tmp_dir env) w.pid w.time1 "ll"
          :: (mid.takeWhile (fun t => decide (t ≠ "-version"))).filter
            (fun t => decide (t ≠ "--afl" ∧
              ¬ t.toList.head? = some '-' ∧ is_llvm_file w.fs t = 1)) := by
  obtain ⟨st, h1, -, h3, -⟩ := classify_loop_prefix cfg w env real_ld argv0 last mid
  have h0 : (edit_params cfg w env real_ld afl_path (argv0 :: (mid ++ [last]))).link_params
      = (classify_loop w.fs (mid.dropWhile (fun t => decide (t ≠ "-version"))) st).1.link_params := by
    rw [← h1]
    simp only [edit_params, loop_range_cons_append]
    split <;> rfl
  rw [h0, ← h3]
  rcases dropWhile_version mid with ⟨-, e, -⟩ | ⟨-, post, e⟩
  · rw [e]
    rfl
  · rw [e, classify_loop]
    simp

/-! ## The claims -/

/-- C1 (as amended): partition completeness of `edit_params` over the arguments the loop
visits. For `argv = argv0 :: (mid ++ [last])` with no "-version" in `mid`, the tokens `L`
stored in `ld_params` between the linker path and the appended flag, and the tokens `B`
stored in `link_params` after "-o" and the merged file, are the two complementary
selections of `mid` without "--afl": each is a subsequence of `mid` in the original order
and `L`, `B` and the dropped "--afl" markers together are a rearrangement of `mid`. The
last argument `last` is in neither list. -/
theorem partition_completeness (cfg : Config) (w : World) (env : Env) (real_ld afl_path : String)
    (argv0 last : String) (mid : List String) (hv : "-version" ∉ mid) :
    ∃ L B : List String,
      cvec (edit_params cfg w env real_ld afl_path (argv0 :: (mid ++ [last]))).ld_params
        = real_ld :: (L ++ [cfg.AFL_CLANG_FLTO, tmp_name (tmp_dir env) w.pid w.time0 "bc"]) ∧
      cvec (edit_params cfg w env real_ld afl_path (argv0 :: (mid ++ [last]))).link_params
        = (cfg.LLVM_BINDIR ++ "/" ++ "llvm-link") :: "-o"
            :: tmp_name (tmp_dir env) w.pid w.time1 "ll" :: B ∧
      L = mid.filter (fun a => a ≠ "--afl" && to_ld_params w.fs a) ∧
      B = mid.filter (fun a => a ≠ "--afl" && !to_ld_params w.fs a) ∧
      L.Sublist mid ∧ B.Sublist mid ∧
      (L ++ B ++ mid.filter (fun a => a = "--afl")).Perm mid := by
  obtain ⟨h1, h2, -⟩ := edit_params_no_version cfg w env real_ld afl_path argv0 last mid hv
  exact ⟨_, _, h1, h2, rfl, rfl, List.filter_sublist _, List.filter_sublist _,
    partition_perm w.fs mid⟩

/-- Witness for C1 (as amended): an argument vector with flags, an object file, bitcode
files, textual IR and the "--afl" marker. -/
theorem partition_completeness_witness :
    ∃ L B : List String,
      cvec (edit_params cfg0 w0 env0 "/bin/ld" "/usr/local/lib/afl"
        ("afl-ld" :: (["-o", "out", "--afl", "foo.o", "a.bc", "-d.bc", "e.ll"] ++ ["last.o"]))).ld_params
        = "/bin/ld" :: (L ++ [cfg0.AFL_CLANG_FLTO, tmp_name (tmp_dir env0) w0.pid w0.time0 "bc"]) ∧
      cvec (edit_params cfg0 w0 env0 "/bin/ld" "/usr/local/lib/afl"
        ("afl-ld" :: (["-o", "out", "--afl", "foo.o", "a.bc", "-d.bc", "e.ll"] ++ ["last.o"]))).link_params
        = (cfg0.LLVM_BINDIR ++ "/" ++ "llvm-link") :: "-o"
            :: tmp_name (tmp_dir env0) w0.pid w0.time1 "ll" :: B ∧
      L = ["-o", "out", "--afl", "foo.o", "a.bc", "-d.bc", "e.ll"].filter
        (fun a => a ≠ "--afl" && to_ld_params w0.fs a) ∧
      B = ["-o", "out", "--afl", "foo.o", "a.bc", "-d.bc", "e.ll"].filter
        (fun a => a ≠ "--afl" && !to_ld_params w0.fs a) ∧
      L.Sublist ["-o", "out", "--afl", "foo.o", "a.bc", "-d.bc", "e.ll"] ∧
      B.Sublist ["-o", "out", "--afl", "foo.o", "a.bc", "-d.bc", "e.ll"] ∧
      (L ++ B ++ ["-o", "out", "--afl", "foo.o", "a.bc", "-d.bc", "e.ll"].filter
        (fun a => a = "--afl")).Perm ["-o", "out", "--afl", "foo.o", "a.bc", "-d.bc", "e.ll"] :=
  partition_completeness cfg0 w0 env0 "/bin/ld" "/usr/local/lib/afl" "afl-ld" "last.o"
    ["-o", "out", "--afl", "foo.o", "a.bc", "-d.bc", "e.ll"] (by decide)

set_option maxRecDepth 100000 in
/-- C1 as stated fails: for `argv = ["afl-ld", "-o", "out", "foo.o"]` (no "-version", no
bitcode input) the token "foo.o" of `argv[1..]` reaches neither `ld_params` nor
`link_params`, so the two lists and the dropped markers do not account for `argv[1..]`. -/
theorem partition_completeness_counterexample :
    "-version" ∉ ["afl-ld", "-o", "out", "foo.o"] ∧
    cvec (edit_params cfg0 w0 env0 "/bin/ld" "/usr/local/lib/afl"
        ["afl-ld", "-o", "out", "foo.o"]).ld_params
      = ["/bin/ld", "-o", "out", "-flto", "/tmp/.afl-4242-1600000000.bc"] ∧
    cvec (edit_params cfg0 w0 env0 "/bin/ld" "/usr/local/lib/afl"
        ["afl-ld", "-o", "out", "foo.o"]).link_params
      = ["/usr/lib/llvm-9/bin/llvm-link", "-o", "/tmp/.afl-4242-1600000001.ll"] ∧
    ¬ ∃ L B : List String,
      cvec (edit_params cfg0 w0 env0 "/bin/ld" "/usr/local/lib/afl"
        ["afl-ld", "-o", "out", "foo.o"]).ld_params
        = "/bin/ld" :: (L ++ ["-flto", "/tmp/.afl-4242-1600000000.bc"]) ∧
      cvec (edit_params cfg0 w0 env0 "/bin/ld" "/usr/local/lib/afl"
        ["afl-ld", "-o", "out", "foo.o"]).link_params
        = "/usr/lib/llvm-9/bin/llvm-link" :: "-o" :: "/tmp/.afl-4242-1600000001.ll" :: B ∧
      (L ++ B ++ (["afl-ld", "-o", "out", "foo.o"] : List String).tail.filter
        (fun a => a = "--afl")).Perm (["afl-ld", "-o", "out", "foo.o"] : List String).tail := by
  have e1 : cvec (edit_params cfg0 w0 env0 "/bin/ld" "/usr/local/lib/afl"
        ["afl-ld", "-o", "out", "foo.o"]).ld_params
      = ["/bin/ld", "-o", "out", "-flto", "/tmp/.afl-4242-1600000000.bc"] := by decide
  have e2 : cvec (edit_params cfg0 w0 env0 "/bin/ld" "/usr/local/lib/afl"
        ["afl-ld", "-o", "out", "foo.o"]).link_params
      = ["/usr/lib/llvm-9/bin/llvm-link", "-o", "/tmp/.afl-4242-1600000001.ll"] := by decide
  refine ⟨by decide, e1, e2, ?_⟩
  rintro ⟨L, B, h1, h2, h3⟩
  rw [e1] at h1
  rw [e2] at h2
  have l1 := congrArg List.length h1
  have l2 := congrArg List.length h2
  have l3 := h3.length_eq
  simp only [List.length_cons, List.length_append, List.length_nil, List.tail_cons] at l1 l2 l3
  have l4 : (((["-o", "out", "foo.o"] : List String).filter (fun a => a = "--afl"))).length = 0 := by decide
  rw [l4] at l3
  omega

set_option maxRecDepth 100000 in
/-- C2 (the code at the failing input): a pipeline-mode run with the arguments
`["-o", "out", "foo.o", "bar.o"]`, none of them "-version" and none classified as a
bitcode input: `link_params` holds no input. Every `execvp` of the linker child is
given the linker path, "-o", "out", "foo.o", and then the flag `AFL_CLANG_FLTO` and
the path of the instrumented file, which lines 141-143 store whatever the number of
bitcode inputs. The linker is given neither the tokens "-o", "out", "foo.o" alone nor
the four arguments unchanged. -/
theorem pass_through_appends_flag :
    pipeline_mode cfg0 w0 ∧
    "-version" ∉ ["afl-ld", "-o", "out", "foo.o", "bar.o"] ∧
    (∀ a ∈ ["-o", "out", "foo.o", "bar.o"], to_ld_params w0.fs a = true) ∧
    cvec (edit_params cfg0 w0 (env_after_guard w0) (resolve_real_ld cfg0 w0.env)
        (resolve_afl_path cfg0 w0.env) ["afl-ld", "-o", "out", "foo.o", "bar.o"]).link_params
      = ["/usr/lib/llvm-9/bin/llvm-link", "-o", "/tmp/.afl-4242-1600000001.ll"] ∧
    exec_argvs Stage.LINK (main cfg0 w0 ["afl-ld", "-o", "out", "foo.o", "bar.o"]).events
      = [["/bin/ld", "-o", "out", "foo.o", "-flto", "/tmp/.afl-4242-1600000000.bc"],
         ["/bin/ld", "-o", "out", "foo.o", "-flto", "/tmp/.afl-4242-1600000000.bc"]] ∧
    ["/bin/ld", "-o", "out", "foo.o"]
      ∉ exec_argvs Stage.LINK (main cfg0 w0 ["afl-ld", "-o", "out", "foo.o", "bar.o"]).events ∧
    ["/bin/ld", "-o", "out", "foo.o", "bar.o"]
      ∉ exec_argvs Stage.LINK (main cfg0 w0 ["afl-ld", "-o", "out", "foo.o", "bar.o"]).events := by
  decide

set_option maxRecDepth 100000 in
/-- C3 (the code at the failing input): a pipeline-mode run with the arguments
`["-o", "out", "foo.o", "bar.o"]`, none of them bitcode. `link_params` holds no input
(`link_par_cnt` is 3, not the 6 that line 243 tests), the warning "No LTO input file
found" is not printed, and llvm-link (with no input) and opt are both forked before
the linker. -/
theorem no_input_still_merges :
    pipeline_mode cfg0 w0 ∧
    "-version" ∉ ["afl-ld", "-o", "out", "foo.o", "bar.o"] ∧
    cvec (edit_params cfg0 w0 (env_after_guard w0) (resolve_real_ld cfg0 w0.env)
        (resolve_afl_path cfg0 w0.env) ["afl-ld", "-o", "out", "foo.o", "bar.o"]).link_params
      = ["/usr/lib/llvm-9/bin/llvm-link", "-o", "/tmp/.afl-4242-1600000001.ll"] ∧
    (edit_params cfg0 w0 (env_after_guard w0) (resolve_real_ld cfg0 w0.env)
        (resolve_afl_path cfg0 w0.env) ["afl-ld", "-o", "out", "foo.o", "bar.o"]).link_par_cnt = 3 ∧
    Event.msg Msg.no_lto_input_file_found
      ∉ (main cfg0 w0 ["afl-ld", "-o", "out", "foo.o", "bar.o"]).events ∧
    forks (main cfg0 w0 ["afl-ld", "-o", "out", "foo.o", "bar.o"]).events
      = [Stage.MERGE, Stage.INSTRUMENT, Stage.LINK] ∧
    exec_argvs Stage.MERGE (main cfg0 w0 ["afl-ld", "-o", "out", "foo.o", "bar.o"]).events
      = [["/usr/lib/llvm-9/bin/llvm-link", "-o", "/tmp/.afl-4242-1600000001.ll"]] := by
  decide

set_option maxRecDepth 100000 in
/-- C4 (the code at the failing input): a pipeline-mode run with exactly three bitcode
inputs `a.bc`, `b.bc`, `c.bc` in which every child would exit with status 0.
`link_par_cnt` is 6, the value line 243 tests, so `main` prints "No LTO input file
found" and forks the linker only: neither llvm-link nor opt is run. -/
theorem three_inputs_skip_pipeline :
    pipeline_mode cfg0 w0 ∧
    cvec (edit_params cfg0 w0 (env_after_guard w0) (resolve_real_ld cfg0 w0.env)
        (resolve_afl_path cfg0 w0.env) ["afl-ld", "a.bc", "b.bc", "c.bc", "-o", "out"]).link_params
      = ["/usr/lib/llvm-9/bin/llvm-link", "-o", "/tmp/.afl-4242-1600000001.ll",
          "a.bc", "b.bc", "c.bc"] ∧
    (edit_params cfg0 w0 (env_after_guard w0) (resolve_real_ld cfg0 w0.env)
        (resolve_afl_path cfg0 w0.env) ["afl-ld", "a.bc", "b.bc", "c.bc", "-o", "out"]).link_par_cnt = 6 ∧
    (∀ k, WEXITSTATUS (w0.child k).status = 0) ∧
    Event.msg Msg.no_lto_input_file_found
      ∈ (main cfg0 w0 ["afl-ld", "a.bc", "b.bc", "c.bc", "-o", "out"]).events ∧
    forks (main cfg0 w0 ["afl-ld", "a.bc", "b.bc", "c.bc", "-o", "out"]).events = [Stage.LINK] ∧
    (main cfg0 w0 ["afl-ld", "a.bc", "b.bc", "c.bc", "-o", "out"]).final = Final.exit 0 := by
  refine ⟨by decide, by decide, by decide, fun _ => (by decide : WEXITSTATUS 0 = 0), by decide, by decide, by decide⟩

/-- C5: failure propagation. In every run of `main` that forks the llvm-link child
(MERGE), with `fork` and `waitpid` succeeding: if that child exited normally with status
`N`, `1 <= N <= 255` (wait status `256 * N`), then `main` ends with `exit(N)` and MERGE is
the only `fork` of the run; if it exited with status 0 and the opt child (INSTRUMENT)
exited normally with status `N`, then `main` ends with `exit(N)` and the forks of the run
are MERGE and INSTRUMENT only, so the real linker is never started. -/
theorem failure_propagation (cfg : Config) (w : World) (argv : List String) (N : Nat)
    (hmerge : Stage.MERGE ∈ forks (main cfg w argv).events)
    (hN1 : 1 ≤ N) (hN2 : N ≤ 255)
    (hf0 : 0 < (w.child 0).fork_ret) (hw0 : 0 < (w.child 0).wait_ret) :
    ((w.child 0).status = 256 * N →
      (main cfg w argv).final = Final.exit N ∧ forks (main cfg w argv).events = [Stage.MERGE]) ∧
    ((w.child 0).status = 0 → 0 < (w.child 1).fork_ret → 0 < (w.child 1).wait_ret →
      (w.child 1).status = 256 * N →
      (main cfg w argv).final = Final.exit N ∧
        forks (main cfg w argv).events = [Stage.MERGE, Stage.INSTRUMENT]) := by
  by_cases hm : pipeline_mode cfg w ∧ 2 ≤ argv.length
  swap
  · rw [main_forks_nil cfg w argv hm] at hmerge
    simp at hmerge
  obtain ⟨hmode, hargc⟩ := hm
  rw [main_pipeline_mode cfg w argv hmode hargc] at hmerge ⊢
  simp only [forks_append, forks_prelude, List.nil_append] at hmerge ⊢
  generalize edit_params cfg w (env_after_guard w) (resolve_real_ld cfg w.env)
    (resolve_afl_path cfg w.env) argv = p at hmerge ⊢
  by_cases hskip : p.just_version = true ∨ p.link_par_cnt = 6
  · rw [(pipeline_skip cfg w _ p _ _ hskip).1] at hmerge
    simp at hmerge
  have hj : p.just_version = false := by
    cases hjv : p.just_version
    · rfl
    · exact absurd (Or.inl hjv) hskip
  have h6 : p.link_par_cnt ≠ 6 := fun h => hskip (Or.inr h)
  constructor
  · intro hs
    have hx : WEXITSTATUS (w.child 0).status = N := by rw [hs]; exact WEXITSTATUS_exited N hN2
    have := pipeline_merge_fails cfg w (env_after_guard w) p (resolve_real_ld cfg w.env)
      (resolve_afl_path cfg w.env) hj h6 hf0 hw0 (by omega)
    rw [hx] at this
    exact ⟨this.2, this.1⟩
  · intro hs hf1 hw1 hs1
    have hx : WEXITSTATUS (w.child 0).status = 0 := by rw [hs]; decide
    have hx1 : WEXITSTATUS (w.child 1).status = N := by rw [hs1]; exact WEXITSTATUS_exited N hN2
    have := pipeline_instrument_fails cfg w (env_after_guard w) p (resolve_real_ld cfg w.env)
      (resolve_afl_path cfg w.env) hj h6 hf0 hw0 hx hf1 hw1 (by omega)
    rw [hx1] at this
    exact ⟨this.2, this.1⟩

/-- Witness for C5: a run whose llvm-link child exits with status 3, and a run whose
llvm-link child exits with 0 and whose opt child exits with status 3. -/
theorem failure_propagation_witness :
    ((main cfg0 (world0 (fun _ => 256 * 3)) ["afl-ld", "-o", "out", "a.bc", "x.o"]).final
        = Final.exit 3 ∧
      forks (main cfg0 (world0 (fun _ => 256 * 3)) ["afl-ld", "-o", "out", "a.bc", "x.o"]).events
        = [Stage.MERGE]) ∧
    ((main cfg0 (world0 (fun k => if k = 1 then 256 * 3 else 0))
        ["afl-ld", "-o", "out", "a.bc", "x.o"]).final = Final.exit 3 ∧
      forks (main cfg0 (world0 (fun k => if k = 1 then 256 * 3 else 0))
        ["afl-ld", "-o", "out", "a.bc", "x.o"]).events = [Stage.MERGE, Stage.INSTRUMENT]) :=
  ⟨(failure_propagation cfg0 (world0 (fun _ => 256 * 3)) ["afl-ld", "-o", "out", "a.bc", "x.o"] 3
      (by decide) (by decide) (by decide) (by decide) (by decide)).1 (by decide),
    (failure_propagation cfg0 (world0 (fun k => if k = 1 then 256 * 3 else 0))
      ["afl-ld", "-o", "out", "a.bc", "x.o"] 3
      (by decide) (by decide) (by decide) (by decide) (by decide)).2
      (by decide) (by decide) (by decide) (by decide)⟩

/-- C6: exit-status transparency. In every run of `main` that forks the real linker (the
last `fork` of the run), if that `fork` and its `waitpid` succeed and the child exited
normally with status `N <= 255` (wait status `256 * N`), then `main` ends with `exit(N)`,
whatever the environment says about keeping the temporary files. -/
theorem exit_status_transparency (cfg : Config) (w : World) (argv : List String) (N : Nat)
    (hlink : Stage.LINK ∈ forks (main cfg w argv).events)
    (hN : N ≤ 255)
    (hf : 0 < (w.child ((forks (main cfg w argv).events).length - 1)).fork_ret)
    (hw : 0 < (w.child ((forks (main cfg w argv).events).length - 1)).wait_ret)
    (hs : (w.child ((forks (main cfg w argv).events).length - 1)).status = 256 * N) :
    (main cfg w argv).final = Final.exit N := by
  by_cases hm : pipeline_mode cfg w ∧ 2 ≤ argv.length
  swap
  · rw [main_forks_nil cfg w argv hm] at hlink
    simp at hlink
  obtain ⟨hmode, hargc⟩ := hm
  rw [main_pipeline_mode cfg w argv hmode hargc] at hlink hf hw hs ⊢
  simp only [forks_append, forks_prelude, List.nil_append] at hlink hf hw hs ⊢
  generalize edit_params cfg w (env_after_guard w) (resolve_real_ld cfg w.env)
    (resolve_afl_path cfg w.env) argv = p at hlink hf hw hs ⊢
  by_cases hskip : p.just_version = true ∨ p.link_par_cnt = 6
  · obtain ⟨h1, h2⟩ := pipeline_skip cfg w (env_after_guard w) p (resolve_real_ld cfg w.env)
      (resolve_afl_path cfg w.env) hskip
    rw [h1] at hf hw hs
    simp only [List.length_singleton, Nat.sub_self] at hf hw hs
    rw [h2, link_stage_final _ _ _ _ _ _ _ hf hw, hs, WEXITSTATUS_exited N hN]
  · have hj : p.just_version = false := by
      cases hjv : p.just_version
      · rfl
      · exact absurd (Or.inl hjv) hskip
    have h6 : p.link_par_cnt ≠ 6 := fun h => hskip (Or.inr h)
    rcases pipeline_merge_cases cfg w (env_after_guard w) p (resolve_real_ld cfg w.env)
      (resolve_afl_path cfg w.env) hj h6 with h | h | ⟨h1, h2⟩
    · rw [h] at hlink
      simp at hlink
    · rw [h] at hlink
      simp at hlink
    · rw [h1] at hf hw hs
      simp only [List.length_cons, List.length_nil] at hf hw hs
      rw [h2, link_stage_final _ _ _ _ _ _ _ hf hw, hs, WEXITSTATUS_exited N hN]

/-- Witness for C6: a full pipeline whose linker exits with status 7, and a "-version" run
whose linker exits with status 7. -/
theorem exit_status_transparency_witness :
    (main cfg0 (world0 (fun k => if k = 2 then 256 * 7 else 0))
      ["afl-ld", "-o", "out", "a.bc", "x.o"]).final = Final.exit 7 ∧
    (main cfg0 (world0 (fun _ => 256 * 7)) ["afl-ld", "-o", "out", "-version", "x.o"]).final
      = Final.exit 7 :=
  ⟨exit_status_transparency cfg0 (world0 (fun k => if k = 2 then 256 * 7 else 0))
      ["afl-ld", "-o", "out", "a.bc", "x.o"] 7 (by decide) (by decide) (by decide) (by decide)
      (by decide),
    exit_status_transparency cfg0 (world0 (fun _ => 256 * 7))
      ["afl-ld", "-o", "out", "-version", "x.o"] 7 (by decide) (by decide) (by decide) (by decide)
      (by decide)⟩

/-- C7: reentry bound. Take three nested runs of `main`: the first starts with
`AFL_LD_CALLER` unset, and each following one reads the value the previous one published
with `setenv`; none of them is stopped by the self-reference test. Then the first reads
depth 0, publishes "1" and does not end in the fatal "calls itself in a loop"; the second
reads depth 1, publishes "2" and does not end in that fatal either; the third reads depth
2, publishes "3" and ends in that fatal, having done nothing else: no `execvp` and no
`fork`. -/
theorem reentry_bound (cfg : Config) (w1 w2 w3 : World) (a1 a2 a3 : List String)
    (h1 : w1.env "AFL_LD_CALLER" = none)
    (h2 : w2.env "AFL_LD_CALLER" = published (main cfg w1 a1).events)
    (h3 : w3.env "AFL_LD_CALLER" = published (main cfg w2 a2).events)
    (s1 : points_to_afl_ld w1 (resolve_real_ld cfg w1.env) = false)
    (s2 : points_to_afl_ld w2 (resolve_real_ld cfg w2.env) = false)
    (s3 : points_to_afl_ld w3 (resolve_real_ld cfg w3.env) = false) :
    (read_caller w1.env = 0 ∧ published (main cfg w1 a1).events = some "1" ∧
      (main cfg w1 a1).final ≠ Final.fatal Fatal.calls_itself_in_a_loop) ∧
    (read_caller w2.env = 1 ∧ published (main cfg w2 a2).events = some "2" ∧
      (main cfg w2 a2).final ≠ Final.fatal Fatal.calls_itself_in_a_loop) ∧
    (read_caller w3.env = 2 ∧
      main cfg w3 a3 = Run.mk [Event.setenv "AFL_LD_CALLER" "3"]
        (Final.fatal Fatal.calls_itself_in_a_loop) ∧
      exec_or_fork (main cfg w3 a3) = false) := by
  have r1 : read_caller w1.env = 0 := by simp [read_caller, h1]
  have p1 : published (main cfg w1 a1).events = some "1" := by
    rw [main_published cfg w1 a1 s1, r1]
    decide
  have r2 : read_caller w2.env = 1 := by
    rw [p1] at h2
    simp only [read_caller, h2]
    decide
  have p2 : published (main cfg w2 a2).events = some "2" := by
    rw [main_published cfg w2 a2 s2, r2]
    decide
  have r3 : read_caller w3.env = 2 := by
    rw [p2] at h3
    simp only [read_caller, h3]
    decide
  have m3 : main cfg w3 a3 = Run.mk [Event.setenv "AFL_LD_CALLER" "3"]
      (Final.fatal Fatal.calls_itself_in_a_loop) := by
    rw [main_loop cfg w3 a3 s3 (by omega), r3]
    decide
  refine ⟨⟨r1, p1, main_final_ne_loop cfg w1 a1 (by omega)⟩,
    ⟨r2, p2, main_final_ne_loop cfg w2 a2 (by omega)⟩, r3, m3, ?_⟩
  rw [m3]
  decide

set_option maxRecDepth 100000 in
/-- Witness for C7: three nested runs under `env0`. -/
theorem reentry_bound_witness :
    (read_caller w0.env = 0 ∧
      published (main cfg0 w0 ["afl-ld", "-o", "out", "x.o"]).events = some "1" ∧
      (main cfg0 w0 ["afl-ld", "-o", "out", "x.o"]).final
        ≠ Final.fatal Fatal.calls_itself_in_a_loop) ∧
    (read_caller (nested "1").env = 1 ∧
      published (main cfg0 (nested "1") ["afl-ld", "-o", "out", "x.o"]).events = some "2" ∧
      (main cfg0 (nested "1") ["afl-ld", "-o", "out", "x.o"]).final
        ≠ Final.fatal Fatal.calls_itself_in_a_loop) ∧
    (read_caller (nested "2").env = 2 ∧
      main cfg0 (nested "2") ["afl-ld", "-o", "out", "x.o"]
        = Run.mk [Event.setenv "AFL_LD_CALLER" "3"] (Final.fatal Fatal.calls_itself_in_a_loop) ∧
      exec_or_fork (main cfg0 (nested "2") ["afl-ld", "-o", "out", "x.o"]) = false) :=
  reentry_bound cfg0 w0 (nested "1") (nested "2") ["afl-ld", "-o", "out", "x.o"]
    ["afl-ld", "-o", "out", "x.o"] ["afl-ld", "-o", "out", "x.o"]
    (by decide) (by decide) (by decide) (by decide) (by decide) (by decide)

/-- C8 (as amended): version short-circuit. In every pipeline-mode run (self-reference test
and reentry guard passed, `AFL_LD` set) whose argument vector `argv0 :: (mid ++ [last])`
has "-version" among the visited arguments `mid = argv[1..argc-2]`, the only `fork` of
`main` is the one of the real linker (no llvm-link, no opt), every `execvp` of that child
gets exactly the vector `[real_ld, "-version"]` whatever precedes or follows the token,
and `main` calls `unlink` on nothing. -/
theorem version_short_circuit (cfg : Config) (w : World) (argv0 last : String) (mid : List String)
    (hmode : pipeline_mode cfg w) (hv : "-version" ∈ mid) :
    forks (main cfg w (argv0 :: (mid ++ [last]))).events = [Stage.LINK] ∧
      exec_argvs Stage.LINK (main cfg w (argv0 :: (mid ++ [last]))).events ≠ [] ∧
      (∀ v ∈ exec_argvs Stage.LINK (main cfg w (argv0 :: (mid ++ [last]))).events,
        v = [resolve_real_ld cfg w.env, "-version"]) ∧
      unlinks (main cfg w (argv0 :: (mid ++ [last]))).events = [] := by
  have hargc : 2 ≤ (argv0 :: (mid ++ [last])).length := by simp
  obtain ⟨hj, hld, -⟩ := edit_params_version cfg w (env_after_guard w) (resolve_real_ld cfg w.env)
    (resolve_afl_path cfg w.env) argv0 last mid hv
  obtain ⟨ha, hb⟩ := link_argvs_main cfg w (argv0 :: (mid ++ [last])) hmode hargc
  rw [hld] at ha
  have hf : forks (main cfg w (argv0 :: (mid ++ [last]))).events = [Stage.LINK] := by
    rw [main_pipeline_mode cfg w _ hmode hargc]
    simp only [forks_append, forks_prelude, List.nil_append]
    exact (pipeline_version cfg w _ _ _ _ hj).1
  refine ⟨hf, hb (by rw [hf]; simp), ha, ?_⟩
  rw [main_pipeline_mode cfg w _ hmode hargc]
  simp only [unlinks_append, unlinks_prelude, List.nil_append]
  exact (pipeline_version cfg w _ _ _ _ hj).2.1

/-- Witness for C8 (as amended): "-version" between two bitcode inputs. -/
theorem version_short_circuit_witness :
    forks (main cfg0 w0 ("afl-ld" :: (["-o", "out", "a.bc", "-version", "b.bc"] ++ ["x.o"]))).events
        = [Stage.LINK] ∧
      exec_argvs Stage.LINK
        (main cfg0 w0 ("afl-ld" :: (["-o", "out", "a.bc", "-version", "b.bc"] ++ ["x.o"]))).events ≠ [] ∧
      (∀ v ∈ exec_argvs Stage.LINK
          (main cfg0 w0 ("afl-ld" :: (["-o", "out", "a.bc", "-version", "b.bc"] ++ ["x.o"]))).events,
        v = [resolve_real_ld cfg0 w0.env, "-version"]) ∧
      unlinks (main cfg0 w0 ("afl-ld" :: (["-o", "out", "a.bc", "-version", "b.bc"] ++ ["x.o"]))).events
        = [] :=
  version_short_circuit cfg0 w0 "afl-ld" "x.o" ["-o", "out", "a.bc", "-version", "b.bc"]
    (by decide) (by decide)

set_option maxRecDepth 100000 in
/-- C8 as stated fails for the arguments "-version" alone: with `argv = ["afl-ld",
"-version"]` the loop visits nothing, llvm-link and opt are run, the linker gets the
flag and the instrumented file instead of "-version", and both temporary files are
unlinked. -/
theorem version_short_circuit_counterexample :
    "-version" ∈ ["afl-ld", "-version"] ∧ pipeline_mode cfg0 w0 ∧
    forks (main cfg0 w0 ["afl-ld", "-version"]).events
      = [Stage.MERGE, Stage.INSTRUMENT, Stage.LINK] ∧
    exec_argvs Stage.LINK (main cfg0 w0 ["afl-ld", "-version"]).events
      = [["/bin/ld", "-flto", "/tmp/.afl-4242-1600000000.bc"],
         ["/bin/ld", "-flto", "/tmp/.afl-4242-1600000000.bc"]] ∧
    unlinks (main cfg0 w0 ["afl-ld", "-version"]).events
      = [some "/tmp/.afl-4242-1600000001.ll", some "/tmp/.afl-4242-1600000000.bc"] := by
  decide

/-- C9: classification rule. `is_llvm_file` returns 1 exactly when the file can be opened,
the read of 5 bytes returns 5, and the first four bytes are "; Mo" (0x3B 0x20 0x4D 0x6F)
or 0x42 0x43 0xC0 0xDE; otherwise it returns 0, and it returns nothing else. For every
token `t` other than "--afl" and "-version" that the loop processes, in whatever state
`st` and whatever tokens `rest` follow it ("-version" included), the loop stores `t` in
`link_params` at `link_par_cnt` if and only if `t` does not begin with '-' and
`is_llvm_file` returns 1 for it, and in `ld_params` at `ld_par_cnt` in every other case,
advances that counter and goes on with `rest`. For every argument vector, with the visited
arguments `mid = argv[1..argc-2]`: when the loop leaves off (at the first "-version", or
at the end), `link_params` holds, after the output file, the tokens processed so far that
do not begin with '-' and for which `is_llvm_file` returns 1, and `ld_params` holds,
after the linker path, the other tokens processed so far except "--afl"; the inputs of
`link_params` stay so in the result of `edit_params`; `ld_params` in that result is the
linker path and "-version" when "-version" is among `mid`, and otherwise the linker
path, those other tokens, the flag and the instrumented file; and a token that begins
with '-' is never among the inputs of `link_params`. -/
theorem classification_rule (cfg : Config) (w : World) (env : Env) (real_ld afl_path : String)
    (argv0 last : String) (mid : List String) :
    (∀ t : String, is_llvm_file w.fs t = 1 ↔
      ∃ node, w.fs t = some node ∧ (read node 5).1 = 5 ∧
        ((read node 5).2.take 4 = [0x3B, 0x20, 0x4D, 0x6F] ∨
          (read node 5).2.take 4 = [0x42, 0x43, 0xC0, 0xDE])) ∧
    (∀ t : String, is_llvm_file w.fs t = 0 ∨ is_llvm_file w.fs t = 1) ∧
    (∀ (t : String) (rest : List String) (st : LoopState), t ≠ "--afl" → t ≠ "-version" →
      classify_loop w.fs (t :: rest) st = classify_loop w.fs rest
        (if ¬ t.toList.head? = some '-' ∧ is_llvm_file w.fs t = 1 then
          LoopState.mk st.ld_params (st.link_params.set st.link_par_cnt (some t))
            st.ld_par_cnt (st.link_par_cnt + 1)
        else
          LoopState.mk (st.ld_params.set st.ld_par_cnt (some t)) st.link_params
            (st.ld_par_cnt + 1) st.link_par_cnt)) ∧
    (∃ st : LoopState,
      classify_loop w.fs mid
          (LoopState.mk
            (((List.replicate ((argv0 :: (mid ++ [last])).length + 32) (none : Option String)).set 0
              (some real_ld)).set (argv0 :: (mid ++ [last])).length none)
            ((((List.replicate ((argv0 :: (mid ++ [last])).length + 32) (none : Option String)).set 0
              (some (cfg.LLVM_BINDIR ++ "/" ++ "llvm-link"))).set 1 (some "-o")).set 2
              (some (tmp_name (tmp_dir env) w.pid w.time1 "ll")))
            1 3)
        = classify_loop w.fs (mid.dropWhile (fun t => decide (t ≠ "-version"))) st ∧
      cvec st.ld_params
        = real_ld :: (mid.takeWhile (fun t => decide (t ≠ "-version"))).filter
            (fun t => decide (t ≠ "--afl" ∧
              ¬ (¬ t.toList.head? = some '-' ∧ is_llvm_file w.fs t = 1))) ∧
      cvec st.link_params
        = (cfg.LLVM_BINDIR ++ "/" ++ "llvm-link") :: "-o" :: tmp_name (tmp_dir env) w.pid w.time1 "ll"
            :: (mid.takeWhile (fun t => decide (t ≠ "-version"))).filter
              (fun t => decide (t ≠ "--afl" ∧
                ¬ t.toList.head? = some '-' ∧ is_llvm_file w.fs t = 1)) ∧
      st.ld_par_cnt = 1 + ((mid.takeWhile (fun t => decide (t ≠ "-version"))).filter
            (fun t => decide (t ≠ "--afl" ∧
              ¬ (¬ t.toList.head? = some '-' ∧ is_llvm_file w.fs t = 1)))).length ∧
      st.link_par_cnt = 3 + ((mid.takeWhile (fun t => decide (t ≠ "-version"))).filter
            (fun t => decide (t ≠ "--afl" ∧
              ¬ t.toList.head? = some '-' ∧ is_llvm_file w.fs t = 1))).length) ∧
    cvec (edit_params cfg w env real_ld afl_path (argv0 :: (mid ++ [last]))).link_params
      = (cfg.LLVM_BINDIR ++ "/" ++ "llvm-link") :: "-o" :: tmp_name (tmp_dir env) w.pid w.time1 "ll"
          :: (mid.takeWhile (fun t => decide (t ≠ "-version"))).filter
            (fun t => decide (t ≠ "--afl" ∧
              ¬ t.toList.head? = some '-' ∧ is_llvm_file w.fs t = 1)) ∧
    cvec (edit_params cfg w env real_ld afl_path (argv0 :: (mid ++ [last]))).ld_params
      = (if "-version" ∈ mid then [real_ld, "-version"]
        else real_ld :: (mid.filter (fun t => decide (t ≠ "--afl" ∧
              ¬ (¬ t.toList.head? = some '-' ∧ is_llvm_file w.fs t = 1)))
          ++ [cfg.AFL_CLANG_FLTO, tmp_name (tmp_dir env) w.pid w.time0 "bc"])) ∧
    (∀ t : String, t.toList.head? = some '-' →
      t ∉ (cvec (edit_params cfg w env real_ld afl_path (argv0 :: (mid ++ [last]))).link_params).drop 3) := by
  have hlink := edit_params_link_params cfg w env real_ld afl_path argv0 last mid
  refine ⟨is_llvm_file_eq_one w.fs, is_llvm_file_zero_or_one w.fs,
    fun t rest st hafl hver => classify_loop_step w.fs t rest st hafl hver,
    classify_loop_prefix cfg w env real_ld argv0 last mid, hlink, ?_, ?_⟩
  · by_cases hv : "-version" ∈ mid
    · rw [if_pos hv]
      exact (edit_params_version cfg w env real_ld afl_path argv0 last mid hv).2.1
    · rw [if_neg hv, ← filter_to_ld]
      exact (edit_params_no_version cfg w env real_ld afl_path argv0 last mid hv).1
  · intro t hdash
    rw [hlink]
    simp [List.mem_filter] at hdash ⊢
    tauto

set_option maxRecDepth 100000 in
/-- Witness for C9: an object file and a bitcode file processed before "-version" (the
state the loop is in when it gets there, and the result of `edit_params`), and a vector
without "-version": an object file, a bitcode file, a bitcode file whose name begins
with '-', textual IR, a four-byte file, a directory and a missing file. -/
theorem classification_rule_witness :
    (classify_loop w0.fs ["foo.o", "-version"]
        (LoopState.mk [some "/bin/ld", none, none, none] [none] 1 0)
      = classify_loop w0.fs ["-version"]
        (LoopState.mk [some "/bin/ld", some "foo.o", none, none] [none] 2 0)) ∧
    (classify_loop w0.fs ["a.bc", "-version"]
        (LoopState.mk [some "/bin/ld", none, none, none] [none] 1 0)
      = classify_loop w0.fs ["-version"]
        (LoopState.mk [some "/bin/ld", none, none, none] [some "a.bc"] 1 1)) ∧
    cvec (edit_params cfg0 w0 env0 "/bin/ld" "/usr/local/lib/afl"
        ("afl-ld" :: (["foo.o", "a.bc", "-version", "b.bc"] ++ ["last"]))).link_params
      = ["/usr/lib/llvm-9/bin/llvm-link", "-o", "/tmp/.afl-4242-1600000001.ll", "a.bc"] ∧
    cvec (edit_params cfg0 w0 env0 "/bin/ld" "/usr/local/lib/afl"
        ("afl-ld" :: (["foo.o", "a.bc", "-version", "b.bc"] ++ ["last"]))).ld_params
      = ["/bin/ld", "-version"] ∧
    cvec (edit_params cfg0 w0 env0 "/bin/ld" "/usr/local/lib/afl"
        ("afl-ld" :: (["-o", "out", "foo.o", "a.bc", "-d.bc", "e.ll", "tiny", "dir", "none.bc"]
          ++ ["last"]))).link_params
      = ["/usr/lib/llvm-9/bin/llvm-link", "-o", "/tmp/.afl-4242-1600000001.ll", "a.bc", "e.ll"] ∧
    cvec (edit_params cfg0 w0 env0 "/bin/ld" "/usr/local/lib/afl"
        ("afl-ld" :: (["-o", "out", "foo.o", "a.bc", "-d.bc", "e.ll", "tiny", "dir", "none.bc"]
          ++ ["last"]))).ld_params
      = ["/bin/ld", "-o", "out", "foo.o", "-d.bc", "tiny", "dir", "none.bc", "-flto",
          "/tmp/.afl-4242-1600000000.bc"] :=
  ⟨Eq.trans ((classification_rule cfg0 w0 env0 "/bin/ld" "/usr/local/lib/afl" "afl-ld" "last"
      []).2.2.1 "foo.o" ["-version"] (LoopState.mk [some "/bin/ld", none, none, none] [none] 1 0)
      (by decide) (by decide)) (by decide),
    Eq.trans ((classification_rule cfg0 w0 env0 "/bin/ld" "/usr/local/lib/afl" "afl-ld" "last"
      []).2.2.1 "a.bc" ["-version"] (LoopState.mk [some "/bin/ld", none, none, none] [none] 1 0)
      (by decide) (by decide)) (by decide),
    Eq.trans (classification_rule cfg0 w0 env0 "/bin/ld" "/usr/local/lib/afl" "afl-ld" "last"
      ["foo.o", "a.bc", "-version", "b.bc"]).2.2.2.2.1 (by decide),
    Eq.trans (classification_rule cfg0 w0 env0 "/bin/ld" "/usr/local/lib/afl" "afl-ld" "last"
      ["foo.o", "a.bc", "-version", "b.bc"]).2.2.2.2.2.1 (by decide),
    Eq.trans (classification_rule cfg0 w0 env0 "/bin/ld" "/usr/local/lib/afl" "afl-ld" "last"
      ["-o", "out", "foo.o", "a.bc", "-d.bc", "e.ll", "tiny", "dir", "none.bc"]).2.2.2.2.1
      (by decide),
    Eq.trans (classification_rule cfg0 w0 env0 "/bin/ld" "/usr/local/lib/afl" "afl-ld" "last"
      ["-o", "out", "foo.o", "a.bc", "-d.bc", "e.ll", "tiny", "dir", "none.bc"]).2.2.2.2.2.1
      (by decide)⟩

set_option maxRecDepth 100000 in
/-- C10 (the code at the failing input): the wrapper is /usr/local/bin/afl-ld, which is
what `readlink` of /proc/4242/exe stores, and `AFL_REAL_LD` resolves to that same path.
`readlink` appends no NUL and line 168 only clears `exe[4095]`, so with stale non-zero
bytes (0x41) in the uninitialised buffer `strcmp(exe, real_ld)` is not 0: the test of
line 170 is false, `main` goes on, forks its three children and ends with `exit(0)`. With
NUL bytes in the same buffer the same run ends in the fatal error. -/
theorem self_reference_undetected :
    resolve_real_ld cfg0 (world_self 0x41).env = "/usr/local/bin/afl-ld" ∧
    (world_self 0x41).readlink ("/proc/" ++ toString (world_self 0x41).pid ++ "/exe")
      = some "/usr/local/bin/afl-ld" ∧
    points_to_afl_ld (world_self 0x41) (resolve_real_ld cfg0 (world_self 0x41).env) = false ∧
    (main cfg0 (world_self 0x41) ["afl-ld", "-o", "out", "x.o"]).final = Final.exit 0 ∧
    forks (main cfg0 (world_self 0x41) ["afl-ld", "-o", "out", "x.o"]).events
      = [Stage.MERGE, Stage.INSTRUMENT, Stage.LINK] ∧
    exec_or_fork (main cfg0 (world_self 0x41) ["afl-ld", "-o", "out", "x.o"]) = true ∧
    points_to_afl_ld (world_self 0) (resolve_real_ld cfg0 (world_self 0).env) = true ∧
    main cfg0 (world_self 0) ["afl-ld", "-o", "out", "x.o"]
      = Run.mk [] (Final.fatal Fatal.real_ld_points_to_afl_ld) := by
  decide

/-- C11 (as amended): the linker's vector when bitcode is present. In every pipeline-mode
run whose visited arguments `mid = argv[1..argc-2]` contain no "-version" and at least one
token classified as a bitcode input, the inputs of `link_params` are the bitcode tokens of
`mid` in order (a non-empty list), and every `execvp` of the linker child gets the vector
made of the resolved linker path, the other tokens of `mid` except "--afl" in their order,
then `AFL_CLANG_FLTO`, then the path of the instrumented file, and nothing else; when
the linker child is forked it makes at least one such call. -/
theorem link_vector_with_bitcode (cfg : Config) (w : World) (argv0 last : String)
    (mid : List String) (hmode : pipeline_mode cfg w) (hv : "-version" ∉ mid)
    (hb : ∃ a ∈ mid, a ≠ "--afl" ∧ to_ld_params w.fs a = false) :
    (cvec (edit_params cfg w (env_after_guard w) (resolve_real_ld cfg w.env)
        (resolve_afl_path cfg w.env) (argv0 :: (mid ++ [last]))).link_params).drop 3
      = mid.filter (fun a => a ≠ "--afl" && !to_ld_params w.fs a) ∧
    mid.filter (fun a => a ≠ "--afl" && !to_ld_params w.fs a) ≠ [] ∧
    (Stage.LINK ∈ forks (main cfg w (argv0 :: (mid ++ [last]))).events →
      exec_argvs Stage.LINK (main cfg w (argv0 :: (mid ++ [last]))).events ≠ []) ∧
    (∀ v ∈ exec_argvs Stage.LINK (main cfg w (argv0 :: (mid ++ [last]))).events,
      v = resolve_real_ld cfg w.env :: (mid.filter (fun a => a ≠ "--afl" && to_ld_params w.fs a)
        ++ [cfg.AFL_CLANG_FLTO, tmp_name (tmp_dir w.env) w.pid w.time0 "bc"])) := by
  have hargc : 2 ≤ (argv0 :: (mid ++ [last])).length := by simp
  obtain ⟨hld, hlink, -⟩ := edit_params_no_version cfg w (env_after_guard w)
    (resolve_real_ld cfg w.env) (resolve_afl_path cfg w.env) argv0 last mid hv
  obtain ⟨ha, hb2⟩ := link_argvs_main cfg w (argv0 :: (mid ++ [last])) hmode hargc
  rw [hld, tmp_dir_env_after_guard] at ha
  refine ⟨by rw [hlink]; rfl, ?_, hb2, ha⟩
  obtain ⟨a, ham, hafl, hbc⟩ := hb
  intro hnil
  have : a ∈ mid.filter (fun a => a ≠ "--afl" && !to_ld_params w.fs a) := by
    simp [List.mem_filter, ham, hafl, hbc]
  rw [hnil] at this
  simp at this

set_option maxRecDepth 100000 in
/-- Witness for C11 (as amended): the arguments "-o", "out", "foo.o", "bar.bc" followed by
one more argument; `bar.bc` is the input of llvm-link and the linker gets "-o", "out",
"foo.o", the flag and the instrumented file. -/
theorem link_vector_with_bitcode_witness :
    exec_argvs Stage.LINK
        (main cfg0 w_bar ("afl-ld" :: (["-o", "out", "foo.o", "bar.bc"] ++ ["x.o"]))).events
      = [["/bin/ld", "-o", "out", "foo.o", "-flto", "/tmp/.afl-4242-1600000000.bc"],
         ["/bin/ld", "-o", "out", "foo.o", "-flto", "/tmp/.afl-4242-1600000000.bc"]] ∧
    exec_argvs Stage.MERGE
        (main cfg0 w_bar ("afl-ld" :: (["-o", "out", "foo.o", "bar.bc"] ++ ["x.o"]))).events
      = [["/usr/lib/llvm-9/bin/llvm-link", "-o", "/tmp/.afl-4242-1600000001.ll", "bar.bc"]] ∧
    ((cvec (edit_params cfg0 w_bar (env_after_guard w_bar) (resolve_real_ld cfg0 w_bar.env)
        (resolve_afl_path cfg0 w_bar.env)
        ("afl-ld" :: (["-o", "out", "foo.o", "bar.bc"] ++ ["x.o"]))).link_params).drop 3
      = ["-o", "out", "foo.o", "bar.bc"].filter (fun a => a ≠ "--afl" && !to_ld_params w_bar.fs a) ∧
    ["-o", "out", "foo.o", "bar.bc"].filter (fun a => a ≠ "--afl" && !to_ld_params w_bar.fs a) ≠ [] ∧
    (Stage.LINK ∈ forks (main cfg0 w_bar ("afl-ld" :: (["-o", "out", "foo.o", "bar.bc"] ++ ["x.o"]))).events →
      exec_argvs Stage.LINK
        (main cfg0 w_bar ("afl-ld" :: (["-o", "out", "foo.o", "bar.bc"] ++ ["x.o"]))).events ≠ []) ∧
    (∀ v ∈ exec_argvs Stage.LINK
        (main cfg0 w_bar ("afl-ld" :: (["-o", "out", "foo.o", "bar.bc"] ++ ["x.o"]))).events,
      v = resolve_real_ld cfg0 w_bar.env :: (["-o", "out", "foo.o", "bar.bc"].filter
          (fun a => a ≠ "--afl" && to_ld_params w_bar.fs a)
        ++ [cfg0.AFL_CLANG_FLTO, tmp_name (tmp_dir w_bar.env) w_bar.pid w_bar.time0 "bc"]))) :=
  ⟨by decide, by decide,
    link_vector_with_bitcode cfg0 w_bar "afl-ld" "x.o" ["-o", "out", "foo.o", "bar.bc"] (by decide)
      (by decide) ⟨"bar.bc", by decide, by decide, by decide⟩⟩

set_option maxRecDepth 100000 in
/-- C11 as stated fails at its own example: for the arguments `["-o", "out", "foo.o",
"bar.bc"]` with `bar.bc` a bitcode file, `bar.bc` is the last argument, which the loop
does not visit, so the list of bitcode inputs is empty (llvm-link is run without input)
and not `["bar.bc"]`; the linker's vector is "-o", "out", "foo.o", the flag and the
instrumented file. -/
theorem link_vector_with_bitcode_counterexample :
    pipeline_mode cfg0 w_bar ∧
    "-version" ∉ ["afl-ld", "-o", "out", "foo.o", "bar.bc"] ∧
    is_llvm_file w_bar.fs "bar.bc" = 1 ∧
    (cvec (edit_params cfg0 w_bar (env_after_guard w_bar) (resolve_real_ld cfg0 w_bar.env)
        (resolve_afl_path cfg0 w_bar.env) ["afl-ld", "-o", "out", "foo.o", "bar.bc"]).link_params).drop 3
      = [] ∧
    exec_argvs Stage.MERGE (main cfg0 w_bar ["afl-ld", "-o", "out", "foo.o", "bar.bc"]).events
      = [["/usr/lib/llvm-9/bin/llvm-link", "-o", "/tmp/.afl-4242-1600000001.ll"]] ∧
    exec_argvs Stage.LINK (main cfg0 w_bar ["afl-ld", "-o", "out", "foo.o", "bar.bc"]).events
      = [["/bin/ld", "-o", "out", "foo.o", "-flto", "/tmp/.afl-4242-1600000000.bc"],
         ["/bin/ld", "-o", "out", "foo.o", "-flto", "/tmp/.afl-4242-1600000000.bc"]] := by
  decide



/-- C12: artifact threading. For every argument vector with no "-version" among the visited
arguments `mid`, `edit_params` builds the merge command as llvm-link (under
`LLVM_BINDIR`), "-o", `M`, followed by the bitcode inputs `B` in their order, and the
optimizer command as opt (under `LLVM_BINDIR`), the "--load=" option naming the pass
under `afl_path`, "--afl-lto", `M`, "-o", `I`; the output `M` of the merge is the input
of the optimizer, and the output `I` of the optimizer is the last entry of the real
linker's vector. `M` is the ".ll" name and `I` the ".bc" name. -/
theorem artifact_threading (cfg : Config) (w : World) (env : Env) (real_ld afl_path : String)
    (argv0 last : String) (mid : List String) (hv : "-version" ∉ mid) :
    ∃ (M I : String) (B : List String),
      cvec (edit_params cfg w env real_ld afl_path (argv0 :: (mid ++ [last]))).link_params
        = [cfg.LLVM_BINDIR ++ "/" ++ "llvm-link", "-o", M] ++ B ∧
      B = mid.filter (fun a => a ≠ "--afl" && !to_ld_params w.fs a) ∧
      cvec (edit_params cfg w env real_ld afl_path (argv0 :: (mid ++ [last]))).opt_params
        = [cfg.LLVM_BINDIR ++ "/" ++ "opt",
            "--load=" ++ afl_path ++ "/afl-llvm-lto-instrumentation-pass.so", "--afl-lto",
            M, "-o", I] ∧
      (cvec (edit_params cfg w env real_ld afl_path (argv0 :: (mid ++ [last]))).ld_params).getLast?
        = some I ∧
      M = tmp_name (tmp_dir env) w.pid w.time1 "ll" ∧
      I = tmp_name (tmp_dir env) w.pid w.time0 "bc" := by
  obtain ⟨h1, h2, -⟩ := edit_params_no_version cfg w env real_ld afl_path argv0 last mid hv
  refine ⟨_, _, _, ?_, rfl, edit_params_opt_params cfg w env real_ld afl_path _, ?_, rfl, rfl⟩
  · rw [h2]
    rfl
  · rw [h1]
    simp [List.getLast?_cons, List.getLast?_append]

set_option maxRecDepth 100000 in
/-- Witness for C12: two bitcode inputs among flags and an object file. -/
theorem artifact_threading_witness :
    cvec (edit_params cfg0 w0 env0 "/bin/ld" "/usr/local/lib/afl"
        ("afl-ld" :: (["-o", "out", "a.bc", "foo.o", "e.ll"] ++ ["x.o"]))).link_params
      = ["/usr/lib/llvm-9/bin/llvm-link", "-o", "/tmp/.afl-4242-1600000001.ll", "a.bc", "e.ll"] ∧
    ∃ (M I : String) (B : List String),
      cvec (edit_params cfg0 w0 env0 "/bin/ld" "/usr/local/lib/afl"
          ("afl-ld" :: (["-o", "out", "a.bc", "foo.o", "e.ll"] ++ ["x.o"]))).link_params
        = [cfg0.LLVM_BINDIR ++ "/" ++ "llvm-link", "-o", M] ++ B ∧
      B = ["-o", "out", "a.bc", "foo.o", "e.ll"].filter
        (fun a => a ≠ "--afl" && !to_ld_params w0.fs a) ∧
      cvec (edit_params cfg0 w0 env0 "/bin/ld" "/usr/local/lib/afl"
          ("afl-ld" :: (["-o", "out", "a.bc", "foo.o", "e.ll"] ++ ["x.o"]))).opt_params
        = [cfg0.LLVM_BINDIR ++ "/" ++ "opt",
            "--load=" ++ "/usr/local/lib/afl" ++ "/afl-llvm-lto-instrumentation-pass.so",
            "--afl-lto", M, "-o", I] ∧
      (cvec (edit_params cfg0 w0 env0 "/bin/ld" "/usr/local/lib/afl"
          ("afl-ld" :: (["-o", "out", "a.bc", "foo.o", "e.ll"] ++ ["x.o"]))).ld_params).getLast?
        = some I ∧
      M = tmp_name (tmp_dir env0) w0.pid w0.time1 "ll" ∧
      I = tmp_name (tmp_dir env0) w0.pid w0.time0 "bc" :=
  ⟨by decide, artifact_threading cfg0 w0 env0 "/bin/ld" "/usr/local/lib/afl" "afl-ld" "x.o"
    ["-o", "out", "a.bc", "foo.o", "e.ll"] (by decide)⟩

/-- C13 (as amended): the variable `AFL_LD` selects the mode, the other way round. In a run
that passes the self-reference test and the reentry guard with `argc >= 2`: when `AFL_LD`
is not set, `main` forks nothing and classifies nothing; its first `execvp` is the
resolved real linker with the original `argv`, every `execvp` it makes carries the
original `argv`, and when that first call succeeds the process becomes the real linker.
When `AFL_LD` is set, `main` makes no `execvp` of its own, calls `edit_params` and runs
the stages on its result, forking at least once. -/
theorem bypass_flag (cfg : Config) (w : World) (argv : List String)
    (hself : points_to_afl_ld w (resolve_real_ld cfg w.env) = false)
    (hcaller : read_caller w.env ≤ 1) (hargc : 2 ≤ argv.length) :
    (w.env "AFL_LD" = none →
      forks (main cfg w argv).events = [] ∧
      (own_execs (main cfg w argv)).head?
        = some (ExecAttempt.mk (resolve_real_ld cfg w.env) argv (w.env "PATH")) ∧
      (∀ a ∈ own_execs (main cfg w argv), a.argv = argv) ∧
      (w.execvp (ExecAttempt.mk (resolve_real_ld cfg w.env) argv (w.env "PATH")) = true →
        (main cfg w argv).final
          = Final.execd (ExecAttempt.mk (resolve_real_ld cfg w.env) argv (w.env "PATH")))) ∧
    (w.env "AFL_LD" ≠ none →
      own_execs (main cfg w argv) = [] ∧
      forks (main cfg w argv).events ≠ [] ∧
      main cfg w argv = Run.mk
        (prelude w ++ (pipeline cfg w (env_after_guard w)
          (edit_params cfg w (env_after_guard w) (resolve_real_ld cfg w.env)
            (resolve_afl_path cfg w.env) argv)
          (resolve_real_ld cfg w.env) (resolve_afl_path cfg w.env)).1)
        (pipeline cfg w (env_after_guard w)
          (edit_params cfg w (env_after_guard w) (resolve_real_ld cfg w.env)
            (resolve_afl_path cfg w.env) argv)
          (resolve_real_ld cfg w.env) (resolve_afl_path cfg w.env)).2) := by
  constructor
  · intro hld
    have hpath : env_after_guard w "PATH" = w.env "PATH" := by simp [env_after_guard, setenv]
    obtain ⟨⟨rest, hatt⟩, hargv⟩ := direct_exec_attempts cfg (env_after_guard w)
      (resolve_real_ld cfg w.env) (resolve_afl_path cfg w.env) (read_caller w.env) argv
      (resolve_real_ld_length cfg w.env)
    rw [hpath] at hatt
    obtain ⟨e1, e2, -⟩ := run_attempts_execs w.execvp
      (direct_exec cfg (env_after_guard w) (resolve_real_ld cfg w.env)
        (resolve_afl_path cfg w.env) (read_caller w.env) argv).attempts
      (direct_exec cfg (env_after_guard w) (resolve_real_ld cfg w.env)
        (resolve_afl_path cfg w.env) (read_caller w.env) argv).last
      (fun a => direct_exec_last_not_execd _ _ _ _ _ _ a)
    have hown : own_execs (main cfg w argv)
        = own_execs (Run.mk (run_attempts w.execvp
            (direct_exec cfg (env_after_guard w) (resolve_real_ld cfg w.env)
              (resolve_afl_path cfg w.env) (read_caller w.env) argv).attempts
            (direct_exec cfg (env_after_guard w) (resolve_real_ld cfg w.env)
              (resolve_afl_path cfg w.env) (read_caller w.env) argv).last).1
          (run_attempts w.execvp
            (direct_exec cfg (env_after_guard w) (resolve_real_ld cfg w.env)
              (resolve_afl_path cfg w.env) (read_caller w.env) argv).attempts
            (direct_exec cfg (env_after_guard w) (resolve_real_ld cfg w.env)
              (resolve_afl_path cfg w.env) (read_caller w.env) argv).last).2) := by
      rw [main_direct_mode cfg w argv hself hcaller hargc hld]
      simp only [own_execs, failed_execs_append, failed_execs_prelude, List.nil_append]
    refine ⟨main_forks_nil cfg w argv (fun h => h.1.2.2 hld), ?_, ?_, ?_⟩
    · rw [hown, e2, hatt]
      rfl
    · intro a ha
      rw [hown] at ha
      exact hargv a (e1 a ha)
    · intro hok
      rw [main_direct_mode cfg w argv hself hcaller hargc hld, hatt,
        run_attempts_first _ _ _ _ hok]
  · intro hld
    have hm := main_pipeline_mode cfg w argv ⟨hself, hcaller, hld⟩ hargc
    refine ⟨?_, ?_, hm⟩
    · rw [hm]
      obtain ⟨h1, h2⟩ := own_execs_pipeline cfg w (env_after_guard w)
        (edit_params cfg w (env_after_guard w) (resolve_real_ld cfg w.env)
          (resolve_afl_path cfg w.env) argv)
        (resolve_real_ld cfg w.env) (resolve_afl_path cfg w.env)
      simp only [own_execs, failed_execs_append, failed_execs_prelude, List.nil_append, h1]
    · rw [hm]
      simp only [forks_append, forks_prelude, List.nil_append]
      exact forks_pipeline_ne_nil _ _ _ _ _ _

set_option maxRecDepth 100000 in
/-- Witness for C13 (as amended): a run without `AFL_LD` whose first `execvp` succeeds, and
a run with `AFL_LD` set. -/
theorem bypass_flag_witness :
    (forks (main cfg0 (world_exec env_plain true) ["afl-ld", "-o", "out", "a.bc", "x.o"]).events = [] ∧
      (main cfg0 (world_exec env_plain true) ["afl-ld", "-o", "out", "a.bc", "x.o"]).final
        = Final.execd (ExecAttempt.mk "/bin/ld" ["afl-ld", "-o", "out", "a.bc", "x.o"]
            (some "/usr/bin:/usr/local/lib/afl:/bin"))) ∧
    (own_execs (main cfg0 w0 ["afl-ld", "-o", "out", "a.bc", "x.o"]) = [] ∧
      forks (main cfg0 w0 ["afl-ld", "-o", "out", "a.bc", "x.o"]).events ≠ []) :=
  ⟨⟨((bypass_flag cfg0 (world_exec env_plain true) ["afl-ld", "-o", "out", "a.bc", "x.o"]
        (by decide) (by decide) (by decide)).1 (by decide)).1,
      ((bypass_flag cfg0 (world_exec env_plain true) ["afl-ld", "-o", "out", "a.bc", "x.o"]
        (by decide) (by decide) (by decide)).1 (by decide)).2.2.2 (by decide)⟩,
    ⟨((bypass_flag cfg0 w0 ["afl-ld", "-o", "out", "a.bc", "x.o"]
        (by decide) (by decide) (by decide)).2 (by decide)).1,
      ((bypass_flag cfg0 w0 ["afl-ld", "-o", "out", "a.bc", "x.o"]
        (by decide) (by decide) (by decide)).2 (by decide)).2.1⟩⟩

set_option maxRecDepth 100000 in
/-- C13 as stated fails in both directions: with `AFL_LD` set (`w0`) `main` makes no
`execvp` of its own and forks llvm-link, opt and the linker; with `AFL_LD` not set it
forks nothing and replaces itself by /bin/ld with the original `argv`. -/
theorem bypass_flag_counterexample :
    (w0.env "AFL_LD" = some "1" ∧
      own_execs (main cfg0 w0 ["afl-ld", "-o", "out", "a.bc", "x.o"]) = [] ∧
      forks (main cfg0 w0 ["afl-ld", "-o", "out", "a.bc", "x.o"]).events
        = [Stage.MERGE, Stage.INSTRUMENT, Stage.LINK]) ∧
    ((world_exec env_plain true).env "AFL_LD" = none ∧
      forks (main cfg0 (world_exec env_plain true) ["afl-ld", "-o", "out", "a.bc", "x.o"]).events
        = [] ∧
      (main cfg0 (world_exec env_plain true) ["afl-ld", "-o", "out", "a.bc", "x.o"]).final
        = Final.execd (ExecAttempt.mk "/bin/ld" ["afl-ld", "-o", "out", "a.bc", "x.o"]
            (some "/usr/bin:/usr/local/lib/afl:/bin"))) := by
  decide

/-- C14: real-linker resolution. With `s` the value of `AFL_REAL_LD` in the environment if
it is set and the build-time default otherwise, the resolved path is "/bin/ld" when `s`
is `NULL` or shorter than 2 characters, `s` itself when it has at least 2 characters and
begins with '/', and "/bin/" followed by `s` otherwise. The resolved path always begins
with '/' and has at least 2 characters, and resolving it again (as the value of
`AFL_REAL_LD`) returns it unchanged. -/
theorem real_ld_resolution (cfg : Config) (env : Env) :
    resolve_real_ld cfg env
        = (match (match env "AFL_REAL_LD" with
              | some v => some v
              | none => cfg.AFL_REAL_LD) with
          | none => "/bin/ld"
          | some s =>
            if s.length < 2 then "/bin/ld"
            else if s.toList.head? = some '/' then s
            else "/bin/" ++ s) ∧
      (resolve_real_ld cfg env).toList.head? = some '/' ∧
      2 ≤ (resolve_real_ld cfg env).length ∧
      resolve_real_ld cfg (setenv env "AFL_REAL_LD" (resolve_real_ld cfg env))
        = resolve_real_ld cfg env := by
  have hhead : (resolve_real_ld cfg env).toList.head? = some '/' := by
    unfold resolve_real_ld
    simp only
    split
    · exact head_bin_append _
    · rename_i h
      simpa using h
  have hlen := resolve_real_ld_length cfg env
  have key : ∀ s0 : Option String,
      (if (match s0 with
            | none => "/bin/ld"
            | some s => if s.length < 2 then "/bin/ld" else s).toList.head? ≠ some '/'
        then "/bin/" ++ (match s0 with
            | none => "/bin/ld"
            | some s => if s.length < 2 then "/bin/ld" else s)
        else (match s0 with
            | none => "/bin/ld"
            | some s => if s.length < 2 then "/bin/ld" else s))
      = (match s0 with
          | none => "/bin/ld"
          | some s =>
            if s.length < 2 then "/bin/ld"
            else if s.toList.head? = some '/' then s
            else "/bin/" ++ s) := by
    intro s0
    cases s0 with
    | none => decide
    | some s =>
      by_cases h2 : s.length < 2
      · simp only [h2, if_true]
        decide
      · by_cases h3 : s.toList.head? = some '/'
        · simp only [h2, if_false, h3, ne_eq, not_true_eq_false, if_true]
        · simp only [h2, if_false, h3, ne_eq, not_false_eq_true, if_true]
  refine ⟨?_, hhead, hlen, ?_⟩
  · exact key _
  · generalize resolve_real_ld cfg env = r at hhead hlen
    unfold resolve_real_ld
    simp only [setenv, if_true]
    have : ¬ r.length < 2 := by omega
    simp only [this, if_false, hhead, ne_eq, not_true_eq_false]

/-- C15: collision freedom of the temporary names. With the path built by the format
"%s/.afl-%u-%u.EXT" from the directory, the pid and the time (32-bit unsigned values), and
the extension: for a fixed directory two paths are equal exactly when pid, time and
extension are equal, so two invocations with different pids never get the same path,
whatever their timestamps and extensions, and the ".ll" path differs from the ".bc" path.
In `edit_params` the merged file is the ".ll" name, the instrumented file the ".bc" name,
and the two are never the same path. -/
theorem temp_name_collision_freedom (dir : String) (p1 t1 p2 t2 : Nat) (e1 e2 : String)
    (hp1 : p1 < 2 ^ 32) (hp2 : p2 < 2 ^ 32) (ht1 : t1 < 2 ^ 32) (ht2 : t2 < 2 ^ 32) :
    (tmp_name dir p1 t1 e1 = tmp_name dir p2 t2 e2 ↔ p1 = p2 ∧ t1 = t2 ∧ e1 = e2) ∧
    (p1 ≠ p2 → tmp_name dir p1 t1 e1 ≠ tmp_name dir p2 t2 e2) ∧
    tmp_name dir p1 t1 "ll" ≠ tmp_name dir p1 t2 "bc" ∧
    (∀ (cfg : Config) (w : World) (env : Env) (real_ld afl_path : String) (argv : List String),
      (edit_params cfg w env real_ld afl_path argv).linked_file
        = tmp_name (tmp_dir env) w.pid w.time1 "ll" ∧
      ((edit_params cfg w env real_ld afl_path argv).just_version = false →
        (edit_params cfg w env real_ld afl_path argv).modified_file
          = some (tmp_name (tmp_dir env) w.pid w.time0 "bc")) ∧
      (edit_params cfg w env real_ld afl_path argv).modified_file
        ≠ some (edit_params cfg w env real_ld afl_path argv).linked_file) := by
  have hiff := tmp_name_eq_iff dir p1 t1 p2 t2 e1 e2
  rw [Nat.mod_eq_of_lt hp1, Nat.mod_eq_of_lt hp2, Nat.mod_eq_of_lt ht1, Nat.mod_eq_of_lt ht2] at hiff
  refine ⟨hiff, fun hne h => hne (hiff.mp h).1, ?_, ?_⟩
  · intro h
    have := ((tmp_name_eq_iff dir p1 t1 p1 t2 "ll" "bc").mp h).2.2
    exact absurd this (by decide)
  · intro cfg w env real_ld afl_path argv
    obtain ⟨hl, hm⟩ := edit_params_files cfg w env real_ld afl_path argv
    refine ⟨hl, hm, ?_⟩
    cases hj : (edit_params cfg w env real_ld afl_path argv).just_version
    · rw [hm hj, hl]
      intro h
      have := ((tmp_name_eq_iff _ _ _ _ _ "bc" "ll").mp (Option.some.inj h)).2.2
      exact absurd this (by decide)
    · have hnone : (edit_params cfg w env real_ld afl_path argv).modified_file = none := by
        unfold edit_params at hj ⊢
        simp only at hj ⊢
        split
        · rfl
        · rename_i hr
          simp only [hr, Bool.false_eq_true, if_false] at hj
      rw [hnone]
      simp

/-- Witness for C15: pids 4242 and 4243 at the same second, and the two files of pid 4242. -/
theorem temp_name_collision_freedom_witness :
    tmp_name "/tmp" 4242 1600000000 "bc" ≠ tmp_name "/tmp" 4243 1600000000 "bc" ∧
    tmp_name "/tmp" 4242 1600000000 "ll" ≠ tmp_name "/tmp" 4242 1600000000 "bc" :=
  ⟨(temp_name_collision_freedom "/tmp" 4242 1600000000 4243 1600000000 "bc" "bc"
      (by decide) (by decide) (by decide) (by decide)).2.1 (by decide),
    (temp_name_collision_freedom "/tmp" 4242 1600000000 4242 1600000000 "ll" "ll"
      (by decide) (by decide) (by decide) (by decide)).2.2.1⟩

/-- C16: artifact retention. In every pipeline-mode run with no "-version" among the
visited arguments in which the linker child was forked and waited for successfully: when
`AFL_KEEP_ASSEMBLY` is not set, `main` unlinks the merged file (".ll") and the instrumented
file (".bc"), these two and in this order; when it is set, `main` unlinks nothing. And in
every run of `main` whatsoever, each `unlink` is of one of these two paths. -/
theorem artifact_retention (cfg : Config) (w : World) (argv0 last : String) (mid : List String)
    (hmode : pipeline_mode cfg w) (hv : "-version" ∉ mid)
    (hlink : Stage.LINK ∈ forks (main cfg w (argv0 :: (mid ++ [last]))).events)
    (hf : 0 < (w.child
      ((forks (main cfg w (argv0 :: (mid ++ [last]))).events).length - 1)).fork_ret)
    (hw : 0 < (w.child
      ((forks (main cfg w (argv0 :: (mid ++ [last]))).events).length - 1)).wait_ret) :
    (w.env "AFL_KEEP_ASSEMBLY" = none →
      unlinks (main cfg w (argv0 :: (mid ++ [last]))).events
        = [some (tmp_name (tmp_dir w.env) w.pid w.time1 "ll"),
            some (tmp_name (tmp_dir w.env) w.pid w.time0 "bc")]) ∧
    (w.env "AFL_KEEP_ASSEMBLY" ≠ none →
      unlinks (main cfg w (argv0 :: (mid ++ [last]))).events = []) ∧
    (∀ (w' : World) (argv' : List String), ∀ f ∈ unlinks (main cfg w' argv').events,
      f = some (tmp_name (tmp_dir w'.env) w'.pid w'.time1 "ll") ∨
        f = some (tmp_name (tmp_dir w'.env) w'.pid w'.time0 "bc")) := by
  have hargc : 2 ≤ (argv0 :: (mid ++ [last])).length := by simp
  obtain ⟨-, -, -, hj, hmf, hlf⟩ := edit_params_no_version cfg w (env_after_guard w)
    (resolve_real_ld cfg w.env) (resolve_afl_path cfg w.env) argv0 last mid hv
  rw [tmp_dir_env_after_guard] at hmf hlf
  have hkeep : env_after_guard w "AFL_KEEP_ASSEMBLY" = w.env "AFL_KEEP_ASSEMBLY" := by
    simp [env_after_guard, setenv]
  have key : unlinks (main cfg w (argv0 :: (mid ++ [last]))).events
      = if w.env "AFL_KEEP_ASSEMBLY" = none then
          [some (tmp_name (tmp_dir w.env) w.pid w.time1 "ll"),
            some (tmp_name (tmp_dir w.env) w.pid w.time0 "bc")]
        else [] := by
    rw [main_pipeline_mode cfg w _ hmode hargc] at hlink hf hw ⊢
    simp only [forks_append, forks_prelude, List.nil_append, unlinks_append, unlinks_prelude]
      at hlink hf hw ⊢
    generalize edit_params cfg w (env_after_guard w) (resolve_real_ld cfg w.env)
      (resolve_afl_path cfg w.env) (argv0 :: (mid ++ [last])) = p at hj hmf hlf hlink hf hw ⊢
    rcases unlinks_pipeline cfg w (env_after_guard w) p (resolve_real_ld cfg w.env)
      (resolve_afl_path cfg w.env) with ⟨h1, -⟩ | ⟨-, h2⟩
    · exact absurd hlink h1
    · rw [h2, unlinks_link_stage _ _ _ _ _ _ _ hj hf hw, hkeep, hmf, hlf]
  refine ⟨fun h => by rw [key, if_pos h], fun h => by rw [key, if_neg h],
    fun w' argv' => unlinks_main_subset cfg w' argv'⟩

set_option maxRecDepth 100000 in
/-- Witness for C16: the same run without and with `AFL_KEEP_ASSEMBLY`. -/
theorem artifact_retention_witness :
    unlinks (main cfg0 w0 ("afl-ld" :: (["-o", "out", "a.bc"] ++ ["x.o"]))).events
      = [some "/tmp/.afl-4242-1600000001.ll", some "/tmp/.afl-4242-1600000000.bc"] ∧
    unlinks (main cfg0 (world (setenv env0 "AFL_KEEP_ASSEMBLY" "1") (fun _ => none) 0x41 (fun _ => 0))
      ("afl-ld" :: (["-o", "out", "a.bc"] ++ ["x.o"]))).events = [] :=
  ⟨Eq.trans ((artifact_retention cfg0 w0 "afl-ld" "x.o" ["-o", "out", "a.bc"]
      (by decide) (by decide) (by decide) (by decide) (by decide)).1 (by decide)) (by decide),
    (artifact_retention cfg0
      (world (setenv env0 "AFL_KEEP_ASSEMBLY" "1") (fun _ => none) 0x41 (fun _ => 0))
      "afl-ld" "x.o" ["-o", "out", "a.bc"]
      (by decide) (by decide) (by decide) (by decide) (by decide)).2.1 (by decide)⟩

/-- C17 (as amended): a child ended by a signal is not a stage failure. A wait status
below 256, which is what a child killed by a signal leaves (the signal number in the low
seven bits, the core flag in bit 7), has exit-code byte 0: `WEXITSTATUS` is 0 for it, as
for a child that exited with 0. In every run of `main` that forks the llvm-link child
(MERGE), with `fork` and `waitpid` succeeding and exit-code byte 0 in the wait status
(the child was killed by a signal, or exited with 0), `main` does not exit there: its
next `fork` is the opt child (INSTRUMENT). If the opt child is in turn created, waited
for, and its wait status has exit-code byte 0 (killed by a signal, or exited with 0),
`main` goes on to fork the real linker: the forks of the run are MERGE, INSTRUMENT, LINK,
and once the linker child is created and waited for the run ends with `exit` of the
exit-code byte of the linker. -/
theorem signal_is_not_failure (cfg : Config) (w : World) (argv : List String)
    (hmerge : Stage.MERGE ∈ forks (main cfg w argv).events)
    (hf0 : 0 < (w.child 0).fork_ret) (hw0 : 0 < (w.child 0).wait_ret)
    (hexit0 : WEXITSTATUS (w.child 0).status = 0) :
    (∀ s : Nat, s < 256 → WEXITSTATUS s = 0) ∧
    (forks (main cfg w argv).events).take 2 = [Stage.MERGE, Stage.INSTRUMENT] ∧
    (0 < (w.child 1).fork_ret → 0 < (w.child 1).wait_ret →
      WEXITSTATUS (w.child 1).status = 0 →
      forks (main cfg w argv).events = [Stage.MERGE, Stage.INSTRUMENT, Stage.LINK] ∧
      (0 < (w.child 2).fork_ret → 0 < (w.child 2).wait_ret →
        (main cfg w argv).final = Final.exit (WEXITSTATUS (w.child 2).status))) := by
  refine ⟨WEXITSTATUS_signalled, ?_⟩
  by_cases hm : pipeline_mode cfg w ∧ 2 ≤ argv.length
  swap
  · rw [main_forks_nil cfg w argv hm] at hmerge
    simp at hmerge
  obtain ⟨hmode, hargc⟩ := hm
  rw [main_pipeline_mode cfg w argv hmode hargc] at hmerge ⊢
  simp only [forks_append, forks_prelude, List.nil_append] at hmerge ⊢
  generalize edit_params cfg w (env_after_guard w) (resolve_real_ld cfg w.env)
    (resolve_afl_path cfg w.env) argv = p at hmerge ⊢
  by_cases hskip : p.just_version = true ∨ p.link_par_cnt = 6
  · rw [(pipeline_skip cfg w _ p _ _ hskip).1] at hmerge
    simp at hmerge
  have hj : p.just_version = false := by
    cases hjv : p.just_version
    · rfl
    · exact absurd (Or.inl hjv) hskip
  have h6 : p.link_par_cnt ≠ 6 := fun h => hskip (Or.inr h)
  obtain ⟨rest, h1, h2⟩ := pipeline_merge_passes cfg w (env_after_guard w) p
    (resolve_real_ld cfg w.env) (resolve_afl_path cfg w.env) hj h6 hf0 hw0 hexit0
  rw [h1]
  refine ⟨by simp, fun a b c => ?_⟩
  obtain ⟨e1, e2⟩ := h2 a b c
  rw [e1, e2]
  exact ⟨rfl, fun hf2 hw2 => link_stage_final cfg w _ p _ _ 2 hf2 hw2⟩

set_option maxRecDepth 100000 in
/-- Witness for C17 (as amended): the llvm-link child is killed by signal 9 (wait status
9); and llvm-link exits with 0 while the opt child is killed by signal 11 with a core dump
(wait status 0x8b). Both runs fork all three children and end with `exit(0)`. -/
theorem signal_is_not_failure_witness :
    ((forks (main cfg0 (world0 (fun k => if k = 0 then 9 else 0))
        ["afl-ld", "-o", "out", "a.bc", "x.o"]).events).take 2
      = [Stage.MERGE, Stage.INSTRUMENT] ∧
     forks (main cfg0 (world0 (fun k => if k = 0 then 9 else 0))
        ["afl-ld", "-o", "out", "a.bc", "x.o"]).events
      = [Stage.MERGE, Stage.INSTRUMENT, Stage.LINK] ∧
     (main cfg0 (world0 (fun k => if k = 0 then 9 else 0))
        ["afl-ld", "-o", "out", "a.bc", "x.o"]).final = Final.exit 0) ∧
    (forks (main cfg0 (world0 (fun k => if k = 1 then 0x8b else 0))
        ["afl-ld", "-o", "out", "a.bc", "x.o"]).events
      = [Stage.MERGE, Stage.INSTRUMENT, Stage.LINK] ∧
     (main cfg0 (world0 (fun k => if k = 1 then 0x8b else 0))
        ["afl-ld", "-o", "out", "a.bc", "x.o"]).final = Final.exit 0) :=
  ⟨⟨(signal_is_not_failure cfg0 (world0 (fun k => if k = 0 then 9 else 0))
      ["afl-ld", "-o", "out", "a.bc", "x.o"] (by decide) (by decide) (by decide) (by decide)).2.1,
    ((signal_is_not_failure cfg0 (world0 (fun k => if k = 0 then 9 else 0))
      ["afl-ld", "-o", "out", "a.bc", "x.o"] (by decide) (by decide) (by decide) (by decide)).2.2
        (by decide) (by decide) (by decide)).1,
    ((signal_is_not_failure cfg0 (world0 (fun k => if k = 0 then 9 else 0))
      ["afl-ld", "-o", "out", "a.bc", "x.o"] (by decide) (by decide) (by decide) (by decide)).2.2
        (by decide) (by decide) (by decide)).2 (by decide) (by decide)⟩,
   ⟨((signal_is_not_failure cfg0 (world0 (fun k => if k = 1 then 0x8b else 0))
      ["afl-ld", "-o", "out", "a.bc", "x.o"] (by decide) (by decide) (by decide) (by decide)).2.2
        (by decide) (by decide) (by decide)).1,
    ((signal_is_not_failure cfg0 (world0 (fun k => if k = 1 then 0x8b else 0))
      ["afl-ld", "-o", "out", "a.bc", "x.o"] (by decide) (by decide) (by decide) (by decide)).2.2
        (by decide) (by decide) (by decide)).2 (by decide) (by decide)⟩⟩

set_option maxRecDepth 100000 in
/-- C17 as stated fails: wait status 9 (killed by SIGKILL) has exit-code byte 0 and signal
bits 9. With such a status for the llvm-link child, and likewise for the opt child, `main`
still forks all three children and ends with `exit(0)`. -/
theorem signal_is_not_failure_counterexample :
    (WEXITSTATUS 9 = 0 ∧ 9 &&& 0x7f ≠ 0) ∧
    (forks (main cfg0 (world0 (fun k => if k = 0 then 9 else 0))
        ["afl-ld", "-o", "out", "a.bc", "x.o"]).events
      = [Stage.MERGE, Stage.INSTRUMENT, Stage.LINK] ∧
     (main cfg0 (world0 (fun k => if k = 0 then 9 else 0))
        ["afl-ld", "-o", "out", "a.bc", "x.o"]).final = Final.exit 0) ∧
    (forks (main cfg0 (world0 (fun k => if k = 1 then 9 else 0))
        ["afl-ld", "-o", "out", "a.bc", "x.o"]).events
      = [Stage.MERGE, Stage.INSTRUMENT, Stage.LINK] ∧
     (main cfg0 (world0 (fun k => if k = 1 then 9 else 0))
        ["afl-ld", "-o", "out", "a.bc", "x.o"]).final = Final.exit 0) := by
  decide

/-- C18 (as amended): the launch fallbacks of the real linker, as the code orders them, for
a run past the self-reference test with `argc >= 2` in which the PATH block is defined
(`t` is the value of `PATH` after lines 217-228, resp. 293-304). Direct path (`AFL_LD`
not set), every `execvp` failing: at depth 0 the calls are the configured path, then "ld"
on the unmodified `PATH`, then "/bin/ld"; at depth 1 they are the configured path, then
"ld" on the trimmed `PATH`, then "/bin/ld"; three calls in each case, after which the
fatal "failed to execute ld" is reported. Linker child of the pipeline (`AFL_LD` set): its
calls are the configured path, then "ld" on the trimmed `PATH`, two calls, then the
fatal. -/
theorem fallback_chain (cfg : Config) (w : World) (argv : List String) (t : Option String)
    (hself : points_to_afl_ld w (resolve_real_ld cfg w.env) = false) (hargc : 2 ≤ argv.length)
    (ht : path_fallback cfg (resolve_afl_path cfg w.env) (w.env "PATH") = some t) :
    (w.env "AFL_LD" = none → (∀ a, w.execvp a = false) →
      (read_caller w.env = 0 →
        own_execs (main cfg w argv)
          = [ExecAttempt.mk (resolve_real_ld cfg w.env) argv (w.env "PATH"),
              ExecAttempt.mk "ld" argv (w.env "PATH"),
              ExecAttempt.mk "/bin/ld" argv t] ∧
        (main cfg w argv).final = Final.fatal (Fatal.failed_to_execute "ld")) ∧
      (read_caller w.env = 1 →
        own_execs (main cfg w argv)
          = [ExecAttempt.mk (resolve_real_ld cfg w.env) argv (w.env "PATH"),
              ExecAttempt.mk "ld" argv t,
              ExecAttempt.mk "/bin/ld" argv t] ∧
        (main cfg w argv).final = Final.fatal (Fatal.failed_to_execute "ld"))) ∧
    (w.env "AFL_LD" ≠ none → read_caller w.env ≤ 1 →
      (∀ c ∈ children Stage.LINK (main cfg w argv).events,
        c = ChildProg.mk
            [ExecAttempt.mk (resolve_real_ld cfg w.env)
                (cvec (edit_params cfg w (env_after_guard w) (resolve_real_ld cfg w.env)
                  (resolve_afl_path cfg w.env) argv).ld_params) (w.env "PATH"),
              ExecAttempt.mk "ld"
                (cvec (edit_params cfg w (env_after_guard w) (resolve_real_ld cfg w.env)
                  (resolve_afl_path cfg w.env) argv).ld_params) t]
            (Final.fatal (Fatal.failed_to_execute "ld"))) ∧
      (Stage.LINK ∈ forks (main cfg w argv).events →
        children Stage.LINK (main cfg w argv).events ≠ [])) := by
  have hpath : env_after_guard w "PATH" = w.env "PATH" := by simp [env_after_guard, setenv]
  have ht2 : path_fallback cfg (resolve_afl_path cfg w.env) (env_after_guard w "PATH") = some t := by
    rw [hpath]; exact ht
  constructor
  · intro hld hfail
    have hd := fun d => direct_exec_eq cfg (env_after_guard w) (resolve_real_ld cfg w.env)
      (resolve_afl_path cfg w.env) d argv t (resolve_real_ld_length cfg w.env) ht2
    have key : ∀ d : Int, read_caller w.env = d → d ≤ 1 →
        own_execs (main cfg w argv)
          = (direct_exec cfg (env_after_guard w) (resolve_real_ld cfg w.env)
              (resolve_afl_path cfg w.env) d argv).attempts ∧
        (main cfg w argv).final = Final.fatal (Fatal.failed_to_execute "ld") := by
      intro d hd1 hd2
      obtain ⟨-, -, e3⟩ := run_attempts_execs w.execvp
        (direct_exec cfg (env_after_guard w) (resolve_real_ld cfg w.env)
          (resolve_afl_path cfg w.env) d argv).attempts
        (direct_exec cfg (env_after_guard w) (resolve_real_ld cfg w.env)
          (resolve_afl_path cfg w.env) d argv).last
        (fun a => direct_exec_last_not_execd _ _ _ _ _ _ a)
      obtain ⟨e4, e5⟩ := e3 (fun a _ => hfail a)
      rw [main_direct_mode cfg w argv hself (by omega) hargc hld, hd1]
      refine ⟨?_, ?_⟩
      · exact Eq.trans (by simp only [own_execs, failed_execs_append, failed_execs_prelude,
          List.nil_append]) e4
      · rw [e5, hd]
    constructor
    · intro h0
      obtain ⟨k1, k2⟩ := key 0 h0 (by decide)
      rw [hd 0, hpath] at k1
      exact ⟨k1, k2⟩
    · intro h1
      obtain ⟨k1, k2⟩ := key 1 h1 (by decide)
      rw [hd 1, hpath] at k1
      exact ⟨k1, k2⟩
  · intro hld hcaller
    obtain ⟨c1, c2⟩ := children_link_main cfg w argv ⟨hself, hcaller, hld⟩ hargc
    rw [ld_child_eq cfg (env_after_guard w) (resolve_real_ld cfg w.env) (resolve_afl_path cfg w.env)
      _ t (resolve_real_ld_length cfg w.env) ht2, hpath] at c1
    exact ⟨c1, c2⟩


set_option maxRecDepth 100000 in
/-- Witness for C18 (as amended): the direct path at depth 0 with every `execvp` failing, and
the linker child of a pipeline run, both with `AFL_REAL_LD` = /opt/ld. -/
theorem fallback_chain_witness :
    (own_execs (main cfg0 (world_exec (setenv env_plain "AFL_REAL_LD" "/opt/ld") false)
        ["afl-ld", "-o", "out", "x.o"])
      = [ExecAttempt.mk "/opt/ld" ["afl-ld", "-o", "out", "x.o"]
            (some "/usr/bin:/usr/local/lib/afl:/bin"),
          ExecAttempt.mk "ld" ["afl-ld", "-o", "out", "x.o"]
            (some "/usr/bin:/usr/local/lib/afl:/bin"),
          ExecAttempt.mk "/bin/ld" ["afl-ld", "-o", "out", "x.o"]
            (some "/usr/local/lib/afl:/bin")] ∧
      (main cfg0 (world_exec (setenv env_plain "AFL_REAL_LD" "/opt/ld") false)
        ["afl-ld", "-o", "out", "x.o"]).final = Final.fatal (Fatal.failed_to_execute "ld")) ∧
    (∀ c ∈ children Stage.LINK
        (main cfg0 (world (setenv env0 "AFL_REAL_LD" "/opt/ld") (fun _ => none) 0x41 (fun _ => 0))
          ["afl-ld", "-o", "out", "x.o"]).events,
      c = ChildProg.mk
          [ExecAttempt.mk "/opt/ld" ["/opt/ld", "-o", "out", "-flto", "/tmp/.afl-4242-1600000000.bc"]
              (some "/usr/bin:/usr/local/lib/afl:/bin"),
            ExecAttempt.mk "ld" ["/opt/ld", "-o", "out", "-flto", "/tmp/.afl-4242-1600000000.bc"]
              (some "/usr/local/lib/afl:/bin")]
          (Final.fatal (Fatal.failed_to_execute "ld"))) :=
  ⟨((fallback_chain cfg0 (world_exec (setenv env_plain "AFL_REAL_LD" "/opt/ld") false)
        ["afl-ld", "-o", "out", "x.o"] (some "/usr/local/lib/afl:/bin")
        (by decide) (by decide) (by decide)).1 (by decide) (fun _ => rfl)).1 (by decide),
    ((fallback_chain cfg0
        (world (setenv env0 "AFL_REAL_LD" "/opt/ld") (fun _ => none) 0x41 (fun _ => 0))
        ["afl-ld", "-o", "out", "x.o"] (some "/usr/local/lib/afl:/bin")
        (by decide) (by decide) (by decide)).2 (by decide) (by decide)).1⟩

set_option maxRecDepth 100000 in
/-- C18 as stated fails, with `AFL_REAL_LD` = /opt/ld and every launch failing. Direct path
at depth 0: three calls, none of them "ld" on a trimmed `PATH`. Direct path at depth 1:
three calls, none of them "ld" on the unmodified `PATH`. Linker child: two calls, neither
"ld" on the unmodified `PATH` nor "/bin/ld". -/
theorem fallback_chain_counterexample :
    own_execs (main cfg0 (world_exec (setenv env_plain "AFL_REAL_LD" "/opt/ld") false)
        ["afl-ld", "-o", "out", "x.o"])
      = [ExecAttempt.mk "/opt/ld" ["afl-ld", "-o", "out", "x.o"]
            (some "/usr/bin:/usr/local/lib/afl:/bin"),
          ExecAttempt.mk "ld" ["afl-ld", "-o", "out", "x.o"]
            (some "/usr/bin:/usr/local/lib/afl:/bin"),
          ExecAttempt.mk "/bin/ld" ["afl-ld", "-o", "out", "x.o"]
            (some "/usr/local/lib/afl:/bin")] ∧
    own_execs (main cfg0
        (world_exec (setenv (setenv env_plain "AFL_REAL_LD" "/opt/ld") "AFL_LD_CALLER" "1") false)
        ["afl-ld", "-o", "out", "x.o"])
      = [ExecAttempt.mk "/opt/ld" ["afl-ld", "-o", "out", "x.o"]
            (some "/usr/bin:/usr/local/lib/afl:/bin"),
          ExecAttempt.mk "ld" ["afl-ld", "-o", "out", "x.o"]
            (some "/usr/local/lib/afl:/bin"),
          ExecAttempt.mk "/bin/ld" ["afl-ld", "-o", "out", "x.o"]
            (some "/usr/local/lib/afl:/bin")] ∧
    children Stage.LINK
        (main cfg0 (world (setenv env0 "AFL_REAL_LD" "/opt/ld") (fun _ => none) 0x41 (fun _ => 0))
          ["afl-ld", "-o", "out", "x.o"]).events
      = [ChildProg.mk
          [ExecAttempt.mk "/opt/ld" ["/opt/ld", "-o", "out", "-flto", "/tmp/.afl-4242-1600000000.bc"]
              (some "/usr/bin:/usr/local/lib/afl:/bin"),
            ExecAttempt.mk "ld" ["/opt/ld", "-o", "out", "-flto", "/tmp/.afl-4242-1600000000.bc"]
              (some "/usr/local/lib/afl:/bin")]
          (Final.fatal (Fatal.failed_to_execute "ld"))] := by
  decide

/-- C19: the trailing argument is never forwarded. For `argv = argv0 :: (mid ++ [last])`
the loop of `edit_params` visits exactly `mid = argv[1..argc-2]`, so the state built by
`edit_params` (the vectors for the real linker, llvm-link and opt, the counters and
`just_version`) is the same whatever the last argument is, and in pipeline mode the whole
run of `main` is the same: the token in last position reaches neither the linker's nor
the merge tool's argument vector, and a "-version" or "--afl" there has no effect. -/
theorem trailing_argument_ignored (cfg : Config) (w : World) (argv0 last last' : String)
    (mid : List String) (hmode : pipeline_mode cfg w) :
    loop_range (argv0 :: (mid ++ [last])) = mid ∧
    (∀ (env : Env) (real_ld afl_path : String),
      edit_params cfg w env real_ld afl_path (argv0 :: (mid ++ [last]))
        = edit_params cfg w env real_ld afl_path (argv0 :: (mid ++ [last']))) ∧
    main cfg w (argv0 :: (mid ++ [last])) = main cfg w (argv0 :: (mid ++ [last'])) := by
  refine ⟨loop_range_cons_append argv0 last mid,
    fun env real_ld afl_path =>
      edit_params_last_irrelevant cfg w env real_ld afl_path argv0 last last' mid, ?_⟩
  rw [main_pipeline_mode cfg w _ hmode (by simp), main_pipeline_mode cfg w _ hmode (by simp),
    edit_params_last_irrelevant cfg w _ _ _ argv0 last last' mid]

set_option maxRecDepth 100000 in
/-- Witness for C19: a trailing "-version" and a trailing bitcode file give the same run,
in which the linker is not given "-version" and llvm-link is not given `a.bc`. -/
theorem trailing_argument_ignored_witness :
    exec_argvs Stage.LINK (main cfg0 w0 ("afl-ld" :: (["-o", "out", "foo.o"] ++ ["-version"]))).events
      = [["/bin/ld", "-o", "out", "foo.o", "-flto", "/tmp/.afl-4242-1600000000.bc"],
         ["/bin/ld", "-o", "out", "foo.o", "-flto", "/tmp/.afl-4242-1600000000.bc"]] ∧
    exec_argvs Stage.MERGE (main cfg0 w0 ("afl-ld" :: (["-o", "out", "foo.o"] ++ ["a.bc"]))).events
      = [["/usr/lib/llvm-9/bin/llvm-link", "-o", "/tmp/.afl-4242-1600000001.ll"]] ∧
    (loop_range ("afl-ld" :: (["-o", "out", "foo.o"] ++ ["-version"])) = ["-o", "out", "foo.o"] ∧
    (∀ (env : Env) (real_ld afl_path : String),
      edit_params cfg0 w0 env real_ld afl_path ("afl-ld" :: (["-o", "out", "foo.o"] ++ ["-version"]))
        = edit_params cfg0 w0 env real_ld afl_path ("afl-ld" :: (["-o", "out", "foo.o"] ++ ["a.bc"]))) ∧
    main cfg0 w0 ("afl-ld" :: (["-o", "out", "foo.o"] ++ ["-version"]))
      = main cfg0 w0 ("afl-ld" :: (["-o", "out", "foo.o"] ++ ["a.bc"]))) :=
  ⟨by decide, by decide,
    trailing_argument_ignored cfg0 w0 "afl-ld" "-version" "a.bc" ["-o", "out", "foo.o"] (by decide)⟩

end AflLd
